import Mathlib

/-!
Deephaven C++ client: schema, column-source construction and the subscription worker.

A shallow embedding of

* `dhcore/src/clienttable/schema.cc` (`Schema::Create`, `Schema::GetColumnIndex`),
* `dhclient/src/subscription/subscribe_thread.cc` (`ArrayToColumnSource`, its visitor,
  `UpdateProcessor`, `SubscribeState`, `SubscriptionThread::Start`),
* `dhclient/src/client.cc` (`TableHandle::Where`, `TableHandle::ToString`, `printTableData`).

C++ exceptions are modelled with `Except Exn`; member state is passed explicitly; calls made on
collaborators (transport, decoder, callback) are recorded in an event trace.
-/

namespace deephaven

/-! ## Exceptions -/

/-- The dynamic type of a thrown C++ exception object, as far as the sources distinguish it. -/
inductive ExnKind where
  | stdException
  | runtimeError
  | systemError
  | futureError
  deriving DecidableEq, Repr

/-- A thrown exception: its dynamic type and the text returned by `what()`. -/
structure Exn where
  kind : ExnKind
  what : String
  deriving DecidableEq, Repr

/-- The expression `std::runtime_error(message)`. -/
def runtime_error (message : String) : Exn :=
  { kind := ExnKind.runtimeError, what := message }

/-- The macro `DEEPHAVEN_DEBUG_MSG` prefixes a message with the place it is raised at. Its
definition lives in `utility.h`, outside the sources at hand, so the place is a parameter. -/
def DEEPHAVEN_DEBUG_MSG (place message : String) : String :=
  place ++ ": " ++ message

/-! ## Schema (`schema.cc`) -/

namespace dhcore

/-- The enumeration `ElementTypeId::Enum` of `types.h`; `Schema` only stores its values. -/
inductive ElementTypeId where
  | kChar | kInt8 | kInt16 | kInt32 | kInt64 | kFloat | kDouble | kBool | kString | kTimestamp
  deriving DecidableEq, Repr

/-- The container `std::map<std::string_view, size_t, std::less<>>`, as the list of its entries.
Only `insert` and `find` are used by the schema, and neither observes the key order. -/
abbrev NameIndex := List (String × Nat)

/-- The call `index.find(name)`: the mapped value, or `none` for `index.end()`. -/
def NameIndex.find : NameIndex → String → Option Nat
  | [], _ => none
  | (k, v) :: rest, name => if k = name then some v else NameIndex.find rest name

/-- The call `index.insert(std::make_pair(name, i))`: the map afterwards and the `inserted`
flag. An existing key is left untouched and reported with `inserted = false`. -/
def NameIndex.insert (index : NameIndex) (name : String) (i : Nat) : NameIndex × Bool :=
  match NameIndex.find index name with
  | some _ => (index, false)
  | none => (index ++ [(name, i)], true)

/-- The class `Schema`: the members `names_`, `types_` and `index_`. -/
structure Schema where
  names_ : List String
  types_ : List ElementTypeId
  index_ : NameIndex
  deriving DecidableEq, Repr

/-- The loop `for (size_t i = 0; i != names.size(); ++i)` of `Schema::Create`, started at
position `i` with `rest` the names from position `i` on. -/
def Schema.createLoop : List String → Nat → NameIndex → Except Exn NameIndex
  | [], _, index => Except.ok index
  | sv_name :: rest, i, index =>
    match NameIndex.insert index sv_name i with
    | (_, false) => Except.error (runtime_error ("Duplicate column name: " ++ sv_name))
    | (index1, true) => Schema.createLoop rest (i + 1) index1

/-- The factory `Schema::Create(names, types)`. -/
def Schema.Create (names : List String) (types : List ElementTypeId) : Except Exn Schema :=
  if names.length ≠ types.length then
    Except.error (runtime_error (DEEPHAVEN_DEBUG_MSG "Schema::Create"
      ("Sizes differ: " ++ toString names.length ++ " vs " ++ toString types.length)))
  else
    match Schema.createLoop names 0 [] with
    | Except.error e => Except.error e
    | Except.ok index => Except.ok { names_ := names, types_ := types, index_ := index }

/-- The method `Schema::GetColumnIndex(name, strict)`. -/
def Schema.GetColumnIndex (self : Schema) (name : String) (strict : Bool) :
    Except Exn (Option Nat) :=
  match NameIndex.find self.index_ name with
  | some second => Except.ok (some second)
  | none =>
    if !strict then
      Except.ok none
    else
      Except.error (runtime_error (DEEPHAVEN_DEBUG_MSG "Schema::GetColumnIndex"
        ("Column name \"" ++ name ++ "\" not found")))

end dhcore

end deephaven

/-! ## The Arrow library, as far as `subscribe_thread.cc` uses it -/

namespace arrow

/-- The codes of `arrow::Status` (`arrow/status.h`). -/
inductive StatusCode where
  | OK | OutOfMemory | KeyError | TypeError | Invalid | IOError | CapacityError | IndexError
  | Cancelled | UnknownError | NotImplemented | SerializationError
  deriving DecidableEq, Repr

/-- The class `arrow::Status`: a code and a message. -/
structure Status where
  code : StatusCode
  msg : String
  deriving DecidableEq, Repr

/-- The factory `arrow::Status::OK()`. -/
def Status.OK : Status := { code := StatusCode.OK, msg := "" }

/-- The factory `arrow::Status::NotImplemented(msg)`. -/
def Status.NotImplemented (msg : String) : Status :=
  { code := StatusCode.NotImplemented, msg := msg }

/-- The method `Status::ok()`. -/
def Status.ok (s : Status) : Bool := decide (s.code = StatusCode.OK)

/-- The type tags `arrow::Type::type` of the array classes that are not `ListArray`. A
`MapArray` derives from `ListArray` and is a `list` array below (its slots are `STRUCT`). -/
inductive TypeId where
  | NA | BOOL | UINT8 | INT8 | UINT16 | INT16 | UINT32 | INT32 | UINT64 | INT64
  | HALF_FLOAT | FLOAT | DOUBLE | STRING | BINARY | FIXED_SIZE_BINARY | DATE32 | DATE64
  | TIMESTAMP | TIME32 | TIME64 | INTERVAL_MONTHS | INTERVAL_DAY_TIME | INTERVAL_MONTH_DAY_NANO
  | DECIMAL128 | DECIMAL256 | STRUCT | SPARSE_UNION | DENSE_UNION | DICTIONARY | EXTENSION
  | FIXED_SIZE_LIST | DURATION | LARGE_STRING | LARGE_BINARY | LARGE_LIST
  deriving DecidableEq, Repr

/-- An `arrow::Array` as the client looks at it: its dynamic class and its length. A
`ListArray` is the list of its slots, each slot holding the array that `GetScalar(i)` wraps in a
`ListScalar`; every other array is its type tag and its length. -/
inductive Array where
  | flat (type_id : TypeId) (length : Nat)
  | list (slots : List Array)

/-- The method `Array::length()`. -/
def Array.length : Array → Nat
  | Array.flat _ n => n
  | Array.list slots => slots.length

/-- The class `arrow::RecordBatch`, of which the worker reads `columns()`. -/
structure RecordBatch where
  columns : List Array

/-- The bytes of an `arrow::Buffer`, each below 256. -/
abbrev Bytes := List Nat

namespace flight

/-- The struct `arrow::flight::FlightStreamChunk`: two shared pointers, either of which may be
null (`none`). -/
structure FlightStreamChunk where
  data : Option RecordBatch
  app_metadata : Option Bytes

/-- One call `fsr_->Next(&flight_stream_chunk)`: the returned status and the chunk the call
leaves in `flight_stream_chunk`. -/
structure NextResult where
  status : Status
  chunk : FlightStreamChunk

/-- The `FlightStreamReader` of one subscription: the results its successive `Next` calls are
going to give. When the list is used up the next `Next` call is still blocked in the transport. -/
abbrev FlightStreamReader := List NextResult

/-- The struct `arrow::flight::FlightDescriptor` with `type = CMD`. -/
structure FlightDescriptor where
  cmd : Bytes
  deriving DecidableEq, Repr

/-- The struct `arrow::flight::FlightCallOptions`, of which the setup code fills `headers`. -/
structure FlightCallOptions where
  headers : List (String × String)
  deriving DecidableEq, Repr

end flight

end arrow

namespace deephaven
namespace client

/-! ## Column sources (`arrow_column_source.h`) -/

/-- The column-source classes of `arrowutil`, each made by `Create(storage, &array)`; the
typed pointer `&array` points into `storage`, which is what the source keeps alive. -/
inductive ColumnSource where
  | ArrowInt8ColumnSource (storage : arrow.Array)
  | ArrowInt16ColumnSource (storage : arrow.Array)
  | ArrowInt32ColumnSource (storage : arrow.Array)
  | ArrowInt64ColumnSource (storage : arrow.Array)
  | ArrowBooleanColumnSource (storage : arrow.Array)
  | ArrowStringColumnSource (storage : arrow.Array)
  | ArrowDateTimeColumnSource (storage : arrow.Array)

/-- The helper `OkOrThrow(DEEPHAVEN_EXPR_MSG(expr))` of `arrow_util.h`: returns when the status
is OK and otherwise throws a `std::runtime_error` that carries the status message. -/
def OkOrThrow (place : String) (status : arrow.Status) : Except Exn Unit :=
  if status.ok then Except.ok ()
  else Except.error (runtime_error (DEEPHAVEN_DEBUG_MSG place status.msg))

namespace subscription

/-- The struct `ColumnSourceAndSize`; `columnSource_` is a shared pointer, null by default. -/
structure ColumnSourceAndSize where
  columnSource_ : Option ColumnSource
  size_ : Nat

/-- The struct `ArrayToColumnSourceVisitor`: the members `storage_` and `result_`. -/
structure ArrayToColumnSourceVisitor where
  storage_ : arrow.Array
  result_ : Option ColumnSource

/-- The call `array.Accept(&v)`: Arrow dispatches on the array class to the matching `Visit`
overload. The visitor overrides seven of them; every other overload is the one inherited from
`arrow::ArrayVisitor`, which returns `Status::NotImplemented` and leaves the visitor alone. -/
def ArrayToColumnSourceVisitor.Accept (v : ArrayToColumnSourceVisitor) (array : arrow.Array) :
    arrow.Status × ArrayToColumnSourceVisitor :=
  match array with
  | arrow.Array.flat arrow.TypeId.INT8 _ =>
    (arrow.Status.OK, { v with result_ := some (ColumnSource.ArrowInt8ColumnSource v.storage_) })
  | arrow.Array.flat arrow.TypeId.INT16 _ =>
    (arrow.Status.OK, { v with result_ := some (ColumnSource.ArrowInt16ColumnSource v.storage_) })
  | arrow.Array.flat arrow.TypeId.INT32 _ =>
    (arrow.Status.OK, { v with result_ := some (ColumnSource.ArrowInt32ColumnSource v.storage_) })
  | arrow.Array.flat arrow.TypeId.INT64 _ =>
    (arrow.Status.OK, { v with result_ := some (ColumnSource.ArrowInt64ColumnSource v.storage_) })
  | arrow.Array.flat arrow.TypeId.BOOL _ =>
    (arrow.Status.OK, { v with result_ := some (ColumnSource.ArrowBooleanColumnSource v.storage_) })
  | arrow.Array.flat arrow.TypeId.STRING _ =>
    (arrow.Status.OK, { v with result_ := some (ColumnSource.ArrowStringColumnSource v.storage_) })
  | arrow.Array.flat arrow.TypeId.TIMESTAMP _ =>
    (arrow.Status.OK,
      { v with result_ := some (ColumnSource.ArrowDateTimeColumnSource v.storage_) })
  | _ => (arrow.Status.NotImplemented "ArrayVisitor::Visit", v)

/-- The helper `VerboseCast<const arrow::ListArray *>`: a `dynamic_cast` that throws when the
object is of another class. The result is the slots of the list array. -/
def VerboseCast_ListArray (array : arrow.Array) : Except Exn (List arrow.Array) :=
  match array with
  | arrow.Array.list slots => Except.ok slots
  | arrow.Array.flat _ _ =>
    Except.error (runtime_error (DEEPHAVEN_DEBUG_MSG "VerboseCast" "&array"))

/-- The function `ArrayToColumnSource(array)`. With the length known to be 1,
`GetScalar(0).ValueOrDie()` is the first slot and its `value` the wrapped inner array. -/
def ArrayToColumnSource (array : arrow.Array) : Except Exn ColumnSourceAndSize :=
  match VerboseCast_ListArray array with
  | Except.error e => Except.error e
  | Except.ok list_array =>
    if h : list_array.length ≠ 1 then
      Except.error (runtime_error (DEEPHAVEN_DEBUG_MSG "ArrayToColumnSource"
        ("Expected array of length 1, got " ++ toString array.length)))
    else
      let list_scalar_value := list_array.get ⟨0, by omega⟩
      let v : ArrayToColumnSourceVisitor := { storage_ := list_scalar_value, result_ := none }
      let (status, v1) := v.Accept list_scalar_value
      match OkOrThrow "list_scalar_value->Accept(&v)" status with
      | Except.error e => Except.error e
      | Except.ok _ =>
        Except.ok { columnSource_ := v1.result_, size_ := list_scalar_value.length }

/-- The inner types that the specification lists as supported: Int8, Int16, Int32, Int64,
Boolean, String and Timestamp. -/
def supportedTypes : List arrow.TypeId :=
  [arrow.TypeId.INT8, arrow.TypeId.INT16, arrow.TypeId.INT32, arrow.TypeId.INT64,
    arrow.TypeId.BOOL, arrow.TypeId.STRING, arrow.TypeId.TIMESTAMP]

/-! ## The worker: `UpdateProcessor` -/

/-- The frame decoder `BarrageProcessor` of `barrage_processor.h`, which is outside the sources
at hand and therefore a parameter: `create` is the constructor `BarrageProcessor bp(schema_)`,
`ProcessNextChunk` the method of that name acting on the decoder state. The pair
`(metadata, metadata_size)` is `none` for `(nullptr, 0)`. -/
structure BarrageProcessor (σ υ : Type) where
  create : dhcore.Schema → σ
  ProcessNextChunk : σ → List (Option ColumnSource) → List Nat → Option arrow.Bytes →
    Except Exn (σ × Option υ)

/-- The calls the worker thread makes on the decoder and on the caller's `TickingCallback`. -/
inductive Event (υ : Type) where
  | ProcessNextChunk (column_sources : List (Option ColumnSource)) (sizes : List Nat)
      (metadata : Option arrow.Bytes)
  | OnTick (update : υ)
  | OnFailure (error : Exn)

/-- How far `RunForeverHelper` got on the reads it was given: it is blocked in the next `Next`
call, or it was left by an exception, or it dereferenced the null `data` pointer of a chunk. -/
inductive LoopEnd where
  | blockedInNext
  | thrown (e : Exn)
  | nullDataDereferenced
  deriving DecidableEq, Repr

/-- The loop `for (const auto &col : cols)` of `RunForeverHelper`, with the two vectors it
appends to. -/
def convertColumns : List arrow.Array → List (Option ColumnSource) → List Nat →
    Except Exn (List (Option ColumnSource) × List Nat)
  | [], column_sources, sizes => Except.ok (column_sources, sizes)
  | col :: cols, column_sources, sizes =>
    match ArrayToColumnSource col with
    | Except.error e => Except.error e
    | Except.ok css => convertColumns cols (column_sources ++ [css.columnSource_])
        (sizes ++ [css.size_])

/-- The loop `while (true)` of `RunForeverHelper`, run on the results of the coming `Next`
calls with decoder state `bp`. Returns how the loop ended and the calls it made, in order. -/
def RunForeverHelper.loop {σ υ : Type} (P : BarrageProcessor σ υ) :
    arrow.flight.FlightStreamReader → σ → LoopEnd × List (Event υ)
  | [], _ => (LoopEnd.blockedInNext, [])
  | next :: fsr, bp =>
    match OkOrThrow "fsr_->Next(&flight_stream_chunk)" next.status with
    | Except.error e => (LoopEnd.thrown e, [])
    | Except.ok _ =>
      match next.chunk.data with
      | none => (LoopEnd.nullDataDereferenced, [])
      | some data =>
        match convertColumns data.columns [] [] with
        | Except.error e => (LoopEnd.thrown e, [])
        | Except.ok (column_sources, sizes) =>
          let call := Event.ProcessNextChunk column_sources sizes next.chunk.app_metadata
          match P.ProcessNextChunk bp column_sources sizes next.chunk.app_metadata with
          | Except.error e => (LoopEnd.thrown e, [call])
          | Except.ok (bp1, none) =>
            let r := RunForeverHelper.loop P fsr bp1
            (r.1, call :: r.2)
          | Except.ok (bp1, some result) =>
            let r := RunForeverHelper.loop P fsr bp1
            (r.1, call :: Event.OnTick result :: r.2)

/-- The class `UpdateProcessor`: the reader `fsr_`, the schema, the flag `cancelled_`, and
whether `thread_` is joinable. The callback is the caller's object; calls on it are events. -/
structure UpdateProcessor where
  fsr_ : arrow.flight.FlightStreamReader
  schema_ : dhcore.Schema
  cancelled_ : Bool
  thread_joinable : Bool

/-- The method `UpdateProcessor::RunForeverHelper`. -/
def UpdateProcessor.RunForeverHelper {σ υ : Type} (P : BarrageProcessor σ υ)
    (self : UpdateProcessor) : LoopEnd × List (Event υ) :=
  RunForeverHelper.loop P self.fsr_ (P.create self.schema_)

/-- The function `UpdateProcessor::RunUntilCancelled(self)`, the body of the worker thread.
`self.cancelled_` is the value the handler `catch (...)` reads from the flag. -/
def UpdateProcessor.RunUntilCancelled {σ υ : Type} (P : BarrageProcessor σ υ)
    (self : UpdateProcessor) : LoopEnd × List (Event υ) :=
  match UpdateProcessor.RunForeverHelper P self with
  | (LoopEnd.thrown e, events) =>
    if !self.cancelled_ then (LoopEnd.thrown e, events ++ [Event.OnFailure e])
    else (LoopEnd.thrown e, events)
  | r => r

/-- The `OnTick` calls of a trace, in order. -/
def ticks {υ : Type} : List (Event υ) → List υ
  | [] => []
  | Event.OnTick u :: rest => u :: ticks rest
  | _ :: rest => ticks rest

/-- The `OnFailure` calls of a trace, in order. -/
def failures {υ : Type} : List (Event υ) → List Exn
  | [] => []
  | Event.OnFailure e :: rest => e :: failures rest
  | _ :: rest => failures rest

/-- The number of `ProcessNextChunk` calls of a trace. -/
def decoderCalls {υ : Type} : List (Event υ) → Nat
  | [] => 0
  | Event.ProcessNextChunk _ _ _ :: rest => decoderCalls rest + 1
  | _ :: rest => decoderCalls rest

/-! ## The handle: `Cancel` and the destructor -/

/-- What `Cancel` does to the outside: a `gpr_log` line, `fsr_->Cancel()`, `thread_.join()`. -/
inductive HandleEvent where
  | gpr_log (severity : String) (text : String)
  | fsr_Cancel
  | thread_join
  deriving DecidableEq, Repr

/-- The outcome of a call on the handle: the object afterwards, what the call did, and the
exception it was left by, if any. -/
structure CallResult where
  self : UpdateProcessor
  events : List HandleEvent
  thrown : Option Exn

/-- The method `UpdateProcessor::Cancel`. `std::thread::join` throws `std::system_error` on a
thread that is not joinable. -/
def UpdateProcessor.Cancel (self : UpdateProcessor) : CallResult :=
  let requested := HandleEvent.gpr_log "INFO"
    "UpdateProcessor::Cancel: Subscription Shutdown requested."
  if self.cancelled_ then
    { self := self,
      events := [requested,
        HandleEvent.gpr_log "ERROR" "UpdateProcessor::Cancel: Already cancelled."],
      thrown := none }
  else
    let self1 := { self with cancelled_ := true }
    if self1.thread_joinable then
      { self := { self1 with thread_joinable := false },
        events := [requested, HandleEvent.fsr_Cancel, HandleEvent.thread_join],
        thrown := none }
    else
      { self := self1,
        events := [requested, HandleEvent.fsr_Cancel],
        thrown := some { kind := ExnKind.systemError, what := "Invalid argument" } }

/-- The method `UpdateProcessor::Cancel` as run by the worker thread itself, which happens
when that thread runs the destructor. With the flag clear and `thread_` joinable,
`thread_.join()` is a join of the calling thread and throws `std::system_error`
(resource_deadlock_would_occur); otherwise the call goes as on any other thread. -/
def UpdateProcessor.CancelOnWorkerThread (self : UpdateProcessor) : CallResult :=
  if !self.cancelled_ && self.thread_joinable then
    { self := { self with cancelled_ := true },
      events := [HandleEvent.gpr_log "INFO"
        "UpdateProcessor::Cancel: Subscription Shutdown requested.", HandleEvent.fsr_Cancel],
      thrown := some { kind := ExnKind.systemError, what := "Resource deadlock avoided" } }
  else
    UpdateProcessor.Cancel self

/-- The outcome of the destructor: what it did, and whether it ended the process. -/
structure DestructorResult where
  events : List HandleEvent
  terminated : Bool
  deriving DecidableEq, Repr

/-- The destructor `UpdateProcessor::~UpdateProcessor`, run on the worker thread or on another
thread. Its body is the call `Cancel()`. An exception that leaves a destructor ends the process
through `std::terminate`, and so does the destruction of a member `thread_` that is still
joinable. -/
def UpdateProcessor.destructor (onWorkerThread : Bool) (self : UpdateProcessor) :
    DestructorResult :=
  let r := if onWorkerThread then self.CancelOnWorkerThread else self.Cancel
  match r.thrown with
  | some _ => { events := r.events, terminated := true }
  | none => { events := r.events, terminated := r.self.thread_joinable }

/-- One `UpdateProcessor` and the `shared_ptr`s to it. `startThread` returns one pointer to its
caller, the owner of the handle, and hands a copy to the worker thread
(`std::thread(&RunUntilCancelled, result)`), which holds it until the thread function returns.
The destructor runs when the last pointer is released, on the thread that releases it.
`events` are the actions made on the handle so far, `raised` the exceptions its owner got, and
`terminated` says whether the process was ended. -/
structure HandleLife where
  self : UpdateProcessor
  ownerHolds : Bool
  workerHolds : Bool
  events : List HandleEvent
  raised : List Exn
  terminated : Bool

/-- The handle as `startThread` leaves it: both pointers are held and the worker runs. -/
def HandleLife.afterStartThread (handle : UpdateProcessor) : HandleLife :=
  { self := handle, ownerHolds := true, workerHolds := true, events := [], raised := [],
    terminated := false }

/-- What can happen to a handle: its owner calls `Cancel`; its owner releases its pointer,
which is the destruction of the handle as the owner sees it; or the thread function of the
worker returns because its loop was left by some failure, which releases the worker's pointer. -/
inductive LifeStep where
  | Cancel
  | release
  | workerReturns
  deriving DecidableEq, Repr

/-- One step, or `none` when it cannot be taken. A `Cancel` that joins returns after the worker
thread has returned and released its pointer. Releasing the last pointer runs the destructor
on the releasing thread. -/
def LifeStep.apply (step : LifeStep) (s : HandleLife) : Option HandleLife :=
  if s.terminated then none
  else
    match step with
    | LifeStep.Cancel =>
      if s.ownerHolds then
        let r := UpdateProcessor.Cancel s.self
        some { s with
          self := r.self,
          events := s.events ++ r.events,
          raised := s.raised ++ r.thrown.toList,
          workerHolds := s.workerHolds && !decide (HandleEvent.thread_join ∈ r.events) }
      else none
    | LifeStep.release =>
      if s.ownerHolds then
        if s.workerHolds then some { s with ownerHolds := false }
        else
          let d := UpdateProcessor.destructor false s.self
          some { s with
            ownerHolds := false,
            events := s.events ++ d.events,
            terminated := d.terminated }
      else none
    | LifeStep.workerReturns =>
      if s.workerHolds then
        if s.ownerHolds then some { s with workerHolds := false }
        else
          let d := UpdateProcessor.destructor true s.self
          some { s with
            workerHolds := false,
            events := s.events ++ d.events,
            terminated := d.terminated }
      else none

/-- Steps taken one after the other. -/
def runLife : List LifeStep → HandleLife → Option HandleLife
  | [], s => some s
  | step :: rest, s =>
    match step.apply s with
    | none => none
    | some s1 => runLife rest s1

/-- The physical shutdown actions among the events: everything but the log lines. -/
def shutdownActions : List HandleEvent → List HandleEvent
  | [] => []
  | HandleEvent.gpr_log _ _ :: rest => shutdownActions rest
  | e :: rest => e :: shutdownActions rest

/-! ## Setup: `SubscribeState` and `SubscriptionThread::Start` -/

/-- The shared state of `std::promise<std::shared_ptr<SubscriptionHandle>>` and its future. -/
inductive SharedState where
  | pending
  | value (handle : UpdateProcessor)
  | exception (e : Exn)

/-- The exception `std::future_error(promise_already_satisfied)`. -/
def promise_already_satisfied : Exn :=
  { kind := ExnKind.futureError, what := "std::future_error: Promise already satisfied" }

/-- The call `promise_.set_value(handle)`. -/
def SharedState.set_value (p : SharedState) (handle : UpdateProcessor) :
    Except Exn SharedState :=
  match p with
  | SharedState.pending => Except.ok (SharedState.value handle)
  | _ => Except.error promise_already_satisfied

/-- The call `promise_.set_exception(ptr)`. -/
def SharedState.set_exception (p : SharedState) (e : Exn) : Except Exn SharedState :=
  match p with
  | SharedState.pending => Except.ok (SharedState.exception e)
  | _ => Except.error promise_already_satisfied

/-- The call `future.get()`: the handle, or the stored exception rethrown; `none` while the
state is pending and the caller is still waiting. -/
def SharedState.get (p : SharedState) : Option (Except Exn UpdateProcessor) :=
  match p with
  | SharedState.pending => none
  | SharedState.value handle => some (Except.ok handle)
  | SharedState.exception e => some (Except.error e)

/-- The expression `std::make_exception_ptr(e)` for `e` declared `const std::exception &`: the
exception object is copy-initialised from the static type of `e`, a plain `std::exception`. -/
def make_exception_ptr (_e : Exn) : Exn :=
  { kind := ExnKind.stdException, what := "std::exception" }

/-- What the setup code needs from outside `subscribe_thread.cc`: the headers of the server,
the statuses of `DoExchange` and `WriteMetadata`, the reader `DoExchange` hands out, whether
the `std::thread` constructor throws, and from `BarrageProcessor` the constant
`kDeephavenMagicNumber` and the function `CreateSubscriptionRequest`. -/
structure Server where
  headers : List (String × String)
  DoExchange : arrow.flight.FlightCallOptions → arrow.flight.FlightDescriptor → arrow.Status
  fsr : arrow.flight.FlightStreamReader
  WriteMetadata : arrow.Bytes → arrow.Status
  thread_error : Option Exn
  kDeephavenMagicNumber : Nat
  CreateSubscriptionRequest : List Int → arrow.Bytes

/-- The calls the setup code makes, in order. -/
inductive SetupEvent where
  | DoExchange (fco : arrow.flight.FlightCallOptions)
      (descriptor : arrow.flight.FlightDescriptor)
  | WriteMetadata (buffer : arrow.Bytes)
  | thread_started
  deriving DecidableEq, Repr

/-- The statement `memcpy(magic_data, &src, sizeof(magic_data))` for the 32-bit `src`, on a
little-endian host. -/
def magic_data (src : Nat) : arrow.Bytes :=
  [src % 2 ^ 32 % 256, src % 2 ^ 32 / 256 % 256, src % 2 ^ 32 / 65536 % 256,
    src % 2 ^ 32 / 16777216 % 256]

/-- The value of a byte as `int8_t`. -/
def toInt8 (b : Nat) : Int :=
  if b % 256 < 128 then (b % 256 : Nat) else ((b % 256 : Nat) : Int) - 256

/-- The function `UpdateProcessor::startThread`. The third component is the outcome of the
destructor of the new object when the `std::thread` constructor throws: the exception unwinds
through `startThread`, the last pointer `result` is released, and the destructor, run on the
thread that does the setup, calls `Cancel` on an object whose `thread_` was never started. When
the constructor succeeds the worker thread holds a copy of the pointer, see `HandleLife`. -/
def UpdateProcessor.startThread (thread_error : Option Exn)
    (fsr : arrow.flight.FlightStreamReader) (schema : dhcore.Schema) :
    Except Exn UpdateProcessor × List SetupEvent × Option DestructorResult :=
  let result : UpdateProcessor :=
    { fsr_ := fsr, schema_ := schema, cancelled_ := false, thread_joinable := false }
  match thread_error with
  | some e => (Except.error e, [], some (UpdateProcessor.destructor false result))
  | none =>
    (Except.ok { result with thread_joinable := true }, [SetupEvent.thread_started], none)

/-- The class `SubscribeState`: its members, the callback apart. -/
structure SubscribeState where
  server_ : Server
  ticketBytes_ : List Int
  schema_ : dhcore.Schema
  promise_ : SharedState

/-- The method `SubscribeState::InvokeHelper`: its result or the exception it throws, the
calls it made, and the outcome of a destructor run while the exception unwinds, if one ran. -/
def SubscribeState.InvokeHelper (self : SubscribeState) :
    Except Exn UpdateProcessor × List SetupEvent × Option DestructorResult :=
  let fco : arrow.flight.FlightCallOptions := { headers := self.server_.headers }
  let descriptor : arrow.flight.FlightDescriptor :=
    { cmd := magic_data self.server_.kDeephavenMagicNumber }
  let ev1 := [SetupEvent.DoExchange fco descriptor]
  match OkOrThrow "client->DoExchange(fco, descriptor, &fsw, &fsr)"
      (self.server_.DoExchange fco descriptor) with
  | Except.error e => (Except.error e, ev1, none)
  | Except.ok _ =>
    let sub_req_raw := self.server_.CreateSubscriptionRequest self.ticketBytes_
    let ev2 := ev1 ++ [SetupEvent.WriteMetadata sub_req_raw]
    match OkOrThrow "fsw->WriteMetadata(std::move(buffer))"
        (self.server_.WriteMetadata sub_req_raw) with
    | Except.error e => (Except.error e, ev2, none)
    | Except.ok _ =>
      let r := UpdateProcessor.startThread self.server_.thread_error self.server_.fsr
        self.schema_
      (r.1, ev2 ++ r.2.1, r.2.2)

/-- The outcome of `SubscribeState::Invoke`: the promise afterwards, the calls made, the
exception that left `Invoke`, if any, and whether the process was ended before `Invoke` could
return. -/
structure InvokeResult where
  promise_ : SharedState
  events : List SetupEvent
  thrown : Option Exn
  terminated : Bool

/-- The method `SubscribeState::Invoke`. Everything thrown in the `try` block derives from
`std::exception` and is handled by the `catch` clause; when a destructor ends the process while
the exception unwinds, the handler is never reached and the promise stays as it was. -/
def SubscribeState.Invoke (self : SubscribeState) : InvokeResult :=
  let r := self.InvokeHelper
  let unwound : Bool :=
    match r.2.2 with
    | some d => d.terminated
    | none => false
  if unwound then
    { promise_ := self.promise_, events := r.2.1, thrown := none, terminated := true }
  else
    let tried : Except Exn SharedState :=
      match r.1 with
      | Except.error e => Except.error e
      | Except.ok subscription_handle => self.promise_.set_value subscription_handle
    match tried with
    | Except.ok p => { promise_ := p, events := r.2.1, thrown := none, terminated := false }
    | Except.error e =>
      match self.promise_.set_exception (make_exception_ptr e) with
      | Except.ok p => { promise_ := p, events := r.2.1, thrown := none, terminated := false }
      | Except.error e1 =>
        { promise_ := self.promise_, events := r.2.1, thrown := some e1, terminated := false }

/-- Modelled from the spec: `Executor::Invoke` is not among the sources; the spec describes
the Executor as an ordered task queue drained by one worker thread, so the task handed to it is
run, here to completion before the caller looks at the future. -/
def Executor.Invoke (ss : SubscribeState) : InvokeResult :=
  ss.Invoke

/-- The outcome of `SubscriptionThread::Start`: what `future.get()` gives the caller, `none`
when it never returns; the calls the setup made; and whether the process was ended. -/
structure StartResult where
  returned : Option (Except Exn UpdateProcessor)
  events : List SetupEvent
  terminated : Bool

/-- The function `SubscriptionThread::Start(server, flight_executor, schema, ticket, callback)`. -/
def SubscriptionThread.Start (server : Server) (schema : dhcore.Schema) (ticket : arrow.Bytes) :
    StartResult :=
  let promise : SharedState := SharedState.pending
  let ticket_bytes := ticket.map toInt8
  let ss : SubscribeState :=
    { server_ := server, ticketBytes_ := ticket_bytes, schema_ := schema, promise_ := promise }
  let r := Executor.Invoke ss
  { returned := if r.terminated then none else r.promise_.get,
    events := r.events,
    terminated := r.terminated }

/-! ## The decoder fed directly, for comparison with the worker -/

/-- A frame that was read successfully: its columns and its metadata, if it has any. -/
structure Frame where
  columns : List arrow.Array
  app_metadata : Option arrow.Bytes

/-- The `Next` result that delivers a frame: status OK, the batch of columns present. -/
def Frame.toNextResult (f : Frame) : arrow.flight.NextResult :=
  { status := arrow.Status.OK,
    chunk := { data := some { columns := f.columns }, app_metadata := f.app_metadata } }

/-- The column source of one frame column, null when the column does not convert. -/
def columnSourceOf (col : arrow.Array) : Option ColumnSource :=
  match ArrayToColumnSource col with
  | Except.ok css => css.columnSource_
  | Except.error _ => none

/-- The size of one frame column, zero when the column does not convert. -/
def sizeOf (col : arrow.Array) : Nat :=
  match ArrayToColumnSource col with
  | Except.ok css => css.size_
  | Except.error _ => 0

/-- The specification of the tick sequence: the decoder is fed each frame in arrival order,
with one column source and one size per frame column, in column order, and the frame's
metadata; the non-empty results are collected in order. A decoder error ends the feed. -/
def feedDecoder {σ υ : Type} (P : BarrageProcessor σ υ) : List Frame → σ → List υ
  | [], _ => []
  | f :: frames, bp =>
    match P.ProcessNextChunk bp (f.columns.map columnSourceOf) (f.columns.map sizeOf)
        f.app_metadata with
    | Except.error _ => []
    | Except.ok (bp1, none) => feedDecoder P frames bp1
    | Except.ok (bp1, some update) => update :: feedDecoder P frames bp1

/-! ## Concrete inputs used to exercise the theorems -/

/-- A decoder for illustration: it counts the frames it is fed and completes a message, which
reports the column sizes, on every second frame. -/
def pairingDecoder : BarrageProcessor Nat (List Nat) where
  create := fun _ => 0
  ProcessNextChunk := fun bp _ sizes _ =>
    Except.ok (bp + 1, if bp % 2 = 1 then some sizes else none)

/-- A frame of two rows with an Int64 column and a String column. -/
def goodFrame : Frame :=
  { columns := [arrow.Array.list [arrow.Array.flat arrow.TypeId.INT64 2],
      arrow.Array.list [arrow.Array.flat arrow.TypeId.STRING 2]],
    app_metadata := some [1, 2, 3] }

/-- A frame of two rows with a String column and a Double column. -/
def doubleFrame : Frame :=
  { columns := [arrow.Array.list [arrow.Array.flat arrow.TypeId.STRING 2],
      arrow.Array.list [arrow.Array.flat arrow.TypeId.DOUBLE 2]],
    app_metadata := none }

/-- A worker object reading from `fsr`, with the flag `cancelled_` as given. -/
def workerOn (fsr : arrow.flight.FlightStreamReader) (cancelled : Bool) : UpdateProcessor :=
  { fsr_ := fsr, schema_ := { names_ := [], types_ := [], index_ := [] },
    cancelled_ := cancelled, thread_joinable := true }

/-- A server whose `DoExchange` and `WriteMetadata` return the given statuses, with one header,
no frames to read, and a subscription request that is the ticket bytes taken modulo 256. -/
def serverReturning (doExchange writeMetadata : arrow.Status) : Server :=
  { headers := [("authorization", "Bearer token")],
    DoExchange := fun _ _ => doExchange,
    fsr := [],
    WriteMetadata := fun _ => writeMetadata,
    thread_error := none,
    kDeephavenMagicNumber := 1852338276,
    CreateSubscriptionRequest := fun ticket => ticket.map fun b => (b % 256).toNat }

/-- A read that fails: the transport reports an I/O error. -/
def failedRead : arrow.flight.NextResult :=
  { status := { code := arrow.StatusCode.IOError, msg := "connection reset" },
    chunk := { data := none, app_metadata := none } }

/-- The read that ends a stream: `Next` succeeds and leaves `data` null. -/
def endOfStream : arrow.flight.NextResult :=
  { status := arrow.Status.OK, chunk := { data := none, app_metadata := none } }

/-! ## The frame decoder as the specification describes it -/

/-- Modelled from the spec: the two logical states of the frame decoder, section 4.3. The
decoder's code, `barrage_processor.cc`, is not among the sources. -/
inductive DecoderPhase where
  | AwaitingSnapshot
  | Streaming
  deriving DecidableEq, Repr

/-- The input of one `ProcessNextChunk` call: per-column sources with their lengths, and the
metadata block. -/
structure ChunkInput where
  column_sources : List (Option ColumnSource)
  sizes : List Nat
  metadata : Option arrow.Bytes

/-- Modelled from the spec: a Ticking Update is either a full snapshot or a delta. -/
inductive UpdateKind where
  | snapshot
  | delta
  deriving DecidableEq, Repr

/-- Modelled from the spec: the update emitted for a complete logical message, with the chunks
the message was made of. -/
structure TickingUpdate where
  kind : UpdateKind
  chunks : List ChunkInput

/-- Modelled from the spec: the state the decoder retains: its logical state, the column count
of the schema, and the chunks of a logical message that is not complete yet. -/
structure DecoderState where
  phase : DecoderPhase
  numCols : Nat
  buffered : List ChunkInput

/-- The exception for a decoder-detected inconsistency. -/
def ProtocolViolation : Exn :=
  runtime_error "ProtocolViolation: column count does not match the schema"

/-- Modelled from the spec: the frame decoder of section 4.3, in place of the `BarrageProcessor`
of `barrage_processor.cc`. A fresh decoder is in `AwaitingSnapshot`. A chunk whose column count
differs from the schema is a protocol violation. A chunk that is a fragment of a larger message
is buffered and gives no update. The first completed message is delivered as a snapshot and
moves the decoder to `Streaming`; every later completed message is delivered as a delta. Which
chunk completes its message is read from the metadata by `completes`, whose encoding the
specification leaves to the wire format. -/
def specDecoder (completes : Option arrow.Bytes → Bool) :
    BarrageProcessor DecoderState TickingUpdate where
  create := fun schema =>
    { phase := DecoderPhase.AwaitingSnapshot, numCols := schema.names_.length, buffered := [] }
  ProcessNextChunk := fun bp column_sources sizes metadata =>
    let chunk : ChunkInput :=
      { column_sources := column_sources, sizes := sizes, metadata := metadata }
    if column_sources.length ≠ bp.numCols then
      Except.error ProtocolViolation
    else if completes metadata then
      match bp.phase with
      | DecoderPhase.AwaitingSnapshot =>
        Except.ok ({ bp with phase := DecoderPhase.Streaming, buffered := [] },
          some { kind := UpdateKind.snapshot, chunks := bp.buffered ++ [chunk] })
      | DecoderPhase.Streaming =>
        Except.ok ({ bp with buffered := [] },
          some { kind := UpdateKind.delta, chunks := bp.buffered ++ [chunk] })
    else
      Except.ok ({ bp with buffered := bp.buffered ++ [chunk] }, none)

/-- What the worker hands to the decoder for a frame whose columns convert. -/
def Frame.toChunkInput (f : Frame) : ChunkInput :=
  { column_sources := f.columns.map columnSourceOf, sizes := f.columns.map sizeOf,
    metadata := f.app_metadata }

/-! ## The end-to-end scenario of the specification -/

/-- The schema of `Ticker`, a String column, and `Close`, a Double column. -/
def tickerCloseSchema : dhcore.Schema :=
  { names_ := ["Ticker", "Close"],
    types_ := [dhcore.ElementTypeId.kString, dhcore.ElementTypeId.kDouble],
    index_ := [("Ticker", 0), ("Close", 1)] }

/-- The two threads that call `Cancel` on the same handle. -/
inductive Caller where
  | A
  | B
  deriving DecidableEq, Repr

/-- Where a thread stands in `UpdateProcessor::Cancel`: about to take `mutex_`; past the
critical section with the flag set by itself; past `fsr_->Cancel()`; returned after
`thread_.join()`; or returned from the branch that logs "Already cancelled". -/
inductive CancelPc where
  | atLock
  | beforeFsrCancel
  | beforeJoin
  | returnedJoined
  | returnedAlreadyCancelled
  deriving DecidableEq, Repr

/-- The handle, its worker thread and the two callers: the flag, whether the worker thread has
exited, where each caller stands, the shutdown actions performed so far, and how many callbacks
the worker made while a caller had already returned (from either branch, and after the join). -/
structure RaceState where
  cancelled_ : Bool
  workerExited : Bool
  pcA : CancelPc
  pcB : CancelPc
  actions : List HandleEvent
  callbacksAfterReturn : Nat
  callbacksAfterJoinedReturn : Nat
  deriving DecidableEq, Repr

/-- One atomic step of one of the threads. The critical section of `Cancel` is one step, since
`mutex_` is held from the test of the flag to its assignment. -/
inductive RaceStep where
  | criticalSection (t : Caller)
  | fsrCancel (t : Caller)
  | join (t : Caller)
  | workerCallback
  | workerExit
  deriving DecidableEq, Repr

/-- Where caller `t` stands. -/
def RaceState.pc (s : RaceState) : Caller → CancelPc
  | Caller.A => s.pcA
  | Caller.B => s.pcB

/-- Moves caller `t`. -/
def RaceState.setPc (s : RaceState) (t : Caller) (pc : CancelPc) : RaceState :=
  match t with
  | Caller.A => { s with pcA := pc }
  | Caller.B => { s with pcB := pc }

/-- Whether a call of `Cancel` has returned. -/
def CancelPc.returned : CancelPc → Bool
  | CancelPc.returnedJoined => true
  | CancelPc.returnedAlreadyCancelled => true
  | _ => false

/-- One step, or `none` when the step cannot be taken in this state. `thread_.join()` returns
only once the worker thread has exited; the worker calls back only while it runs. -/
def RaceStep.apply (step : RaceStep) (s : RaceState) : Option RaceState :=
  match step with
  | RaceStep.criticalSection t =>
    if s.pc t = CancelPc.atLock then
      if s.cancelled_ then some (s.setPc t CancelPc.returnedAlreadyCancelled)
      else some ({ s with cancelled_ := true }.setPc t CancelPc.beforeFsrCancel)
    else none
  | RaceStep.fsrCancel t =>
    if s.pc t = CancelPc.beforeFsrCancel then
      some ({ s with actions := s.actions ++ [HandleEvent.fsr_Cancel] }.setPc t
        CancelPc.beforeJoin)
    else none
  | RaceStep.join t =>
    if s.pc t = CancelPc.beforeJoin ∧ s.workerExited = true then
      some ({ s with actions := s.actions ++ [HandleEvent.thread_join] }.setPc t
        CancelPc.returnedJoined)
    else none
  | RaceStep.workerCallback =>
    if s.workerExited then none
    else some { s with
      callbacksAfterReturn := s.callbacksAfterReturn +
        (if s.pcA.returned || s.pcB.returned then 1 else 0),
      callbacksAfterJoinedReturn := s.callbacksAfterJoinedReturn +
        (if s.pcA = CancelPc.returnedJoined ∨ s.pcB = CancelPc.returnedJoined then 1 else 0) }
  | RaceStep.workerExit =>
    if s.workerExited then none else some { s with workerExited := true }

/-- A schedule: the steps taken, in order. -/
def runSchedule : List RaceStep → RaceState → Option RaceState
  | [], s => some s
  | step :: rest, s =>
    match step.apply s with
    | none => none
    | some s1 => runSchedule rest s1

/-- Both threads have called `Cancel` on a handle whose worker thread is running. -/
def raceInit : RaceState :=
  { cancelled_ := false, workerExited := false, pcA := CancelPc.atLock, pcB := CancelPc.atLock,
    actions := [], callbacksAfterReturn := 0, callbacksAfterJoinedReturn := 0 }

/-- The shutdown actions a caller has performed when it stands at `pc`, if it is the caller
that set the flag. -/
def CancelPc.performed : CancelPc → Option (List HandleEvent)
  | CancelPc.atLock => none
  | CancelPc.returnedAlreadyCancelled => none
  | CancelPc.beforeFsrCancel => some []
  | CancelPc.beforeJoin => some [HandleEvent.fsr_Cancel]
  | CancelPc.returnedJoined => some [HandleEvent.fsr_Cancel, HandleEvent.thread_join]

/-- The invariant of the race: at most one caller has set the flag, the actions performed are
those of that caller, nobody has moved while the flag is clear, a join has returned only after
the worker exited, and no callback followed the return of a join. -/
def RaceState.invariant (s : RaceState) : Prop :=
  (match s.pcA.performed, s.pcB.performed with
    | some a, none => s.cancelled_ = true ∧ s.actions = a
    | none, some b => s.cancelled_ = true ∧ s.actions = b
    | none, none => s.actions = [] ∧
        (s.cancelled_ = false → s.pcA = CancelPc.atLock ∧ s.pcB = CancelPc.atLock) ∧
        (s.cancelled_ = true → False)
    | some _, some _ => False) ∧
    (s.pcA = CancelPc.returnedJoined ∨ s.pcB = CancelPc.returnedJoined →
      s.workerExited = true) ∧
    s.callbacksAfterJoinedReturn = 0

/-- The handle that `startThread` returns for an empty reader and the given schema. -/
def workerOnSchema (schema : dhcore.Schema) : UpdateProcessor :=
  { fsr_ := [], schema_ := schema, cancelled_ := false, thread_joinable := true }

/-- A server on which `DoExchange` and `WriteMetadata` succeed, in a process that cannot
start another thread: the `std::thread` constructor throws `std::system_error`. -/
def serverWithoutThreads : Server :=
  { headers := [("authorization", "Bearer token")],
    DoExchange := fun _ _ => arrow.Status.OK,
    fsr := [],
    WriteMetadata := fun _ => arrow.Status.OK,
    thread_error := some
      { kind := ExnKind.systemError, what := "Resource temporarily unavailable" },
    kDeephavenMagicNumber := 1852338276,
    CreateSubscriptionRequest := fun ticket => ticket.map fun b => (b % 256).toNat }

/-! ## Logical messages made of several frames -/

/-- Modelled from the spec: a logical message as it arrives, the frames that are fragments of
it followed by the frame that completes it. -/
structure LogicalMessage where
  fragments : List Frame
  last : Frame

/-- The frames of a message, in arrival order. -/
def LogicalMessage.frames (m : LogicalMessage) : List Frame :=
  m.fragments ++ [m.last]

/-- What the decoder is handed for the frames of a message. -/
def LogicalMessage.chunks (m : LogicalMessage) : List ChunkInput :=
  m.frames.map Frame.toChunkInput

end subscription

/-! ## Table handles (`client.cc`) -/

/-- The class `SimpleOstringstream`, and any `std::ostream` written to: the characters
streamed so far. -/
abbrev ostream := String

/-- The class `BooleanExpression` as `Where` uses it. Its implementation object is outside the
sources; `irisRepresentation` is the text that `StreamIrisRepresentation` writes. -/
structure BooleanExpression where
  irisRepresentation : String

/-- The call `condition.implAsBooleanExpressionImpl()->StreamIrisRepresentation(oss)`. -/
def BooleanExpression.StreamIrisRepresentation (condition : BooleanExpression) (oss : ostream) :
    ostream :=
  oss ++ condition.irisRepresentation

/-- The class `TableHandle`: the shared pointer `impl_`, null in a default-constructed handle.
The class `TableHandleImpl` is outside the sources, so its type `ι` is a parameter. -/
structure TableHandle (ι : Type) where
  impl_ : Option ι

/-- The method `TableHandle::Where(std::string condition)`, with `impl_->Where` as the
parameter `implWhere`; `none` stands for the dereference of a null `impl_`. -/
def TableHandle.Where {ι : Type} (implWhere : ι → String → ι) (self : TableHandle ι)
    (condition : String) : Option (TableHandle ι) :=
  match self.impl_ with
  | none => none
  | some impl => some { impl_ := some (implWhere impl condition) }

/-- The method `TableHandle::Where(const BooleanExpression &condition)`. -/
def TableHandle.Where_BooleanExpression {ι : Type} (implWhere : ι → String → ι)
    (self : TableHandle ι) (condition : BooleanExpression) : Option (TableHandle ι) :=
  let oss : ostream := ""
  let oss := condition.StreamIrisRepresentation oss
  TableHandle.Where implWhere self oss

/-- A record batch as `printTableData` reads it: `num_rows()`, and for each column the texts
`ToString()` of its scalars, in row order. -/
structure TextBatch where
  num_rows : Nat
  columns : List (List String)
  deriving DecidableEq, Repr

/-- One call `fsr->Next(&chunk)` of `printTableData`: the status and `chunk.data`. -/
structure TextNextResult where
  status : arrow.Status
  data : Option TextBatch
  deriving DecidableEq, Repr

/-- How `printTableData` ended: it returned; it threw; `ValueOrDie` ended the process; or the
reads given were used up and it is blocked in `Next`. -/
inductive PrintEnd where
  | returned
  | thrown (e : Exn)
  | died
  | blockedInNext
  deriving DecidableEq, Repr

/-- The helper `separatedList(begin, end, separator, callback)` of `utility.h`, streamed: the
texts the callback writes for the elements, with the separator between two of them. -/
def separatedList (separator : String) : List String → String
  | [] => ""
  | [x] => x
  | x :: y :: rest => x ++ separator ++ separatedList separator (y :: rest)

/-- The lambda `stream_array_cell` on every column: `a->GetScalar(row_num)`, `ValueOrDie()`,
`ToString()`. `none` when `GetScalar` fails on a row number beyond the column. -/
def streamCells (row_num : Nat) : List (List String) → Option (List String)
  | [] => some []
  | a :: columns =>
    match a.get? row_num, streamCells row_num columns with
    | some vsc, some cells => some (vsc :: cells)
    | _, _ => none

/-- The loop `for (int64_t row_num = 0; row_num < data->num_rows(); ++row_num)` of
`printTableData`, on the row numbers still to come. -/
def printRows (columns : List (List String)) : List Nat → ostream → Option ostream
  | [], s => some s
  | row_num :: rest, s =>
    let s1 := if row_num ≠ 0 then s ++ "\n" else s
    match streamCells row_num columns with
    | none => none
    | some cells => printRows columns rest (s1 ++ separatedList "\t" cells)

/-- The loop `while (true)` of `printTableData`. -/
def printChunks : List TextNextResult → ostream → ostream × PrintEnd
  | [], s => (s, PrintEnd.blockedInNext)
  | next :: fsr, s =>
    match OkOrThrow "fsr->Next(&chunk)" next.status with
    | Except.error e => (s, PrintEnd.thrown e)
    | Except.ok _ =>
      match next.data with
      | none => (s, PrintEnd.returned)
      | some data =>
        match printRows data.columns (List.range data.num_rows) s with
        | none => (s, PrintEnd.died)
        | some s1 => printChunks fsr s1

/-- The function `printTableData(s, table_handle, want_headers)`: `cols` are the names of
`table_handle.GetAllCols()` and `fsr` the reader of `table_handle.GetFlightStreamReader()`. -/
def printTableData (s : ostream) (cols : List String) (fsr : List TextNextResult)
    (want_headers : Bool) : ostream × PrintEnd :=
  let s1 := if want_headers then s ++ separatedList "\t" cols ++ "\n" else s
  printChunks fsr s1

/-- The method `TableHandle::ToString(wantHeaders)`, which streams the table into a fresh
`SimpleOstringstream`. -/
def TableHandle.ToString (cols : List String) (fsr : List TextNextResult)
    (wantHeaders : Bool) : ostream × PrintEnd :=
  printTableData "" cols fsr wantHeaders

/-- The rows of the test table for `2017-11-01` with an A in the ticker, as texts. -/
def aaplRow : List String := ["AAPL", "23.5"]

/-- The second row of the same table. -/
def zngaRow : List String := ["ZNGA", "538.2"]

/-- The batch of the given rows of two cells each. -/
def batchOfRows (rows : List (List String)) : TextBatch :=
  { num_rows := rows.length,
    columns := [rows.map fun r => r.getD 0 "", rows.map fun r => r.getD 1 ""] }

/-- The reader that delivers the given batches and then the end of the stream. -/
def readerOfBatches (batches : List TextBatch) : List TextNextResult :=
  batches.map (fun b => { status := arrow.Status.OK, data := some b }) ++
    [{ status := arrow.Status.OK, data := none }]

/-! ## The client (`client.cc`) -/

/-- The class `Client`: the shared pointer `impl_`, null when the client owns no state. The
class `ClientImpl` is declared outside the sources, so its type `ι` is a parameter. -/
structure Client (ι : Type) where
  impl_ : Option ι

/-- The default constructor `Client::Client()`. -/
def Client.default (ι : Type) : Client ι :=
  { impl_ := none }

/-- The constructor `Client::Client(std::shared_ptr<impl::ClientImpl> impl)`. -/
def Client.ofImpl {ι : Type} (impl : Option ι) : Client ι :=
  { impl_ := impl }

/-- The move constructor `Client::Client(Client &&other)`: the new client, and `other` as the
move leaves it, with a null `impl_`. -/
def Client.move {ι : Type} (other : Client ι) : Client ι × Client ι :=
  ({ impl_ := other.impl_ }, { impl_ := none })

/-- The outcome of a call on a client: the client afterwards, the implementation objects on
which `Shutdown` was called, in order, and the exception the call was left by, if any. -/
structure ClientCallResult (ι : Type) where
  self : Client ι
  shutdowns : List ι
  thrown : Option Exn

/-- The method `Client::Close`. `ClientImpl::Shutdown` is outside the sources: `Shutdown impl`
is the exception it throws on `impl`, if it throws. -/
def Client.Close {ι : Type} (Shutdown : ι → Option Exn) (self : Client ι) :
    ClientCallResult ι :=
  let temp := self.impl_
  let self1 : Client ι := { impl_ := none }
  match temp with
  | none => { self := self1, shutdowns := [], thrown := none }
  | some impl => { self := self1, shutdowns := [impl], thrown := Shutdown impl }

/-- The destructor `Client::~Client`, whose body is the call `Close()`. -/
def Client.destructor {ι : Type} (Shutdown : ι → Option Exn) (self : Client ι) :
    ClientCallResult ι :=
  Client.Close Shutdown self

/-- A call made on a client by its owner. -/
inductive ClientCall where
  | Close
  | destroy
  deriving DecidableEq, Repr

/-- One call on the client. -/
def ClientCall.run {ι : Type} (Shutdown : ι → Option Exn) :
    ClientCall → Client ι → ClientCallResult ι
  | ClientCall.Close, self => Client.Close Shutdown self
  | ClientCall.destroy, self => Client.destructor Shutdown self

/-- Calls made one after the other, the caller going on after an exception: the client at the
end, every `Shutdown` made, and every exception raised. -/
def runClientCalls {ι : Type} (Shutdown : ι → Option Exn) :
    List ClientCall → Client ι → Client ι × List ι × List Exn
  | [], self => (self, [], [])
  | c :: cs, self =>
    let r := c.run Shutdown self
    let rest := runClientCalls Shutdown cs r.self
    (rest.1, r.shutdowns ++ rest.2.1, r.thrown.toList ++ rest.2.2)

end client
end deephaven

/-! ## Theorems: Schema -/

namespace deephaven
namespace dhcore

theorem NameIndex.find_append_single (index : NameIndex) (k : String) (v : Nat) (name : String) :
    NameIndex.find (index ++ [(k, v)]) name =
      match NameIndex.find index name with
      | some x => some x
      | none => if k = name then some v else none := by
  induction index with
  | nil => simp [NameIndex.find]
  | cons hd tl ih =>
    obtain ⟨k1, v1⟩ := hd
    by_cases h : k1 = name
    · simp [NameIndex.find, h]
    · simp [NameIndex.find, h, ih]

/-- The loop fails exactly when a remaining name is already a key or occurs twice. -/
theorem Schema.createLoop_error_iff (rest : List String) (i : Nat) (index : NameIndex) :
    (∃ e, Schema.createLoop rest i index = Except.error e) ↔
      (¬ rest.Nodup ∨ ∃ k ∈ rest, NameIndex.find index k ≠ none) := by
  induction rest generalizing i index with
  | nil => simp [Schema.createLoop]
  | cons name rest ih =>
    cases hf : NameIndex.find index name with
    | some x =>
      simp only [Schema.createLoop, NameIndex.insert, hf]
      constructor
      · intro _
        exact Or.inr ⟨name, List.mem_cons_self _ _, by simp [hf]⟩
      · intro _
        exact ⟨_, rfl⟩
    | none =>
      simp only [Schema.createLoop, NameIndex.insert, hf]
      rw [ih]
      simp only [NameIndex.find_append_single, List.nodup_cons, List.mem_cons]
      constructor
      · rintro (h | ⟨k, hk, hne⟩)
        · exact Or.inl (fun hc => h hc.2)
        · cases hfk : NameIndex.find index k with
          | some x => exact Or.inr ⟨k, Or.inr hk, by simp [hfk]⟩
          | none =>
            rw [hfk] at hne
            by_cases hkn : name = k
            · subst hkn
              exact Or.inl (fun hc => hc.1 hk)
            · simp [hkn] at hne
      · rintro (h | ⟨k, hk, hne⟩)
        · by_cases hmem : name ∈ rest
          · exact Or.inr ⟨name, hmem, by simp [hf]⟩
          · exact Or.inl (fun hc => h ⟨hmem, hc⟩)
        · rcases hk with hk | hk
          · subst hk
            exact absurd hf hne
          · refine Or.inr ⟨k, hk, ?_⟩
            cases hfk : NameIndex.find index k with
            | some x => simp
            | none => exact absurd hfk hne

/-- What the index built by the loop finds. -/
theorem Schema.createLoop_find (rest : List String) (i : Nat) (index index1 : NameIndex)
    (h : Schema.createLoop rest i index = Except.ok index1) (name : String) :
    NameIndex.find index1 name =
      match NameIndex.find index name with
      | some x => some x
      | none => if name ∈ rest then some (i + rest.indexOf name) else none := by
  induction rest generalizing i index with
  | nil =>
    simp only [Schema.createLoop, Except.ok.injEq] at h
    subst h
    cases NameIndex.find index name <;> simp
  | cons hd rest ih =>
    cases hf : NameIndex.find index hd with
    | some x => simp [Schema.createLoop, NameIndex.insert, hf] at h
    | none =>
      simp only [Schema.createLoop, NameIndex.insert, hf] at h
      rw [ih _ _ h, NameIndex.find_append_single]
      cases hfn : NameIndex.find index name with
      | some x => simp
      | none =>
        by_cases hhd : hd = name
        · subst hhd
          simp
        · have hne : ¬ name = hd := fun hc => hhd hc.symm
          simp only [hhd, if_false, List.mem_cons, hne, false_or, List.indexOf_cons_ne _ hhd]
          by_cases hm : name ∈ rest
          · simp only [hm, if_true, Option.some.injEq]
            omega
          · simp [hm]

theorem Schema.Create_ok_iff (names : List String) (types : List ElementTypeId) (s : Schema) :
    Schema.Create names types = Except.ok s ↔
      names.length = types.length ∧ s.names_ = names ∧ s.types_ = types ∧
        Schema.createLoop names 0 [] = Except.ok s.index_ := by
  unfold Schema.Create
  by_cases hlen : names.length = types.length
  · simp only [hlen, ne_eq, not_true_eq_false, if_false, true_and]
    cases hloop : Schema.createLoop names 0 [] with
    | error e => simp
    | ok index =>
      simp only [Except.ok.injEq]
      constructor
      · intro h
        subst h
        simp
      · rintro ⟨h1, h2, h3⟩
        cases s
        simp_all
  · simp [hlen]

/-- The two outcomes of `Schema::Create`, each characterised by its inputs. -/
theorem Schema.Create_outcomes (names : List String) (types : List ElementTypeId) :
    ((∃ e, Schema.Create names types = Except.error e) ↔
        (names.length ≠ types.length ∨ ¬ names.Nodup)) ∧
      ((∃ s, Schema.Create names types = Except.ok s ∧ s.names_ = names ∧ s.types_ = types) ↔
        (names.length = types.length ∧ names.Nodup)) := by
  have hloop := Schema.createLoop_error_iff names 0 []
  simp only [NameIndex.find, ne_eq, not_true_eq_false, and_false, exists_false, or_false]
    at hloop
  by_cases hlen : names.length = types.length
  · cases hc : Schema.createLoop names 0 [] with
    | error e =>
      have hnd : ¬ names.Nodup := hloop.mp ⟨e, hc⟩
      have hcr : Schema.Create names types = Except.error e := by
        simp [Schema.Create, hlen, hc]
      constructor
      · exact ⟨fun _ => Or.inr hnd, fun _ => ⟨e, hcr⟩⟩
      · constructor
        · rintro ⟨s, hs, _⟩
          rw [hcr] at hs
          cases hs
        · intro h
          exact absurd h.2 hnd
    | ok index =>
      have hnd : names.Nodup := by
        by_contra hcon
        obtain ⟨e, he⟩ := hloop.mpr hcon
        rw [hc] at he
        cases he
      have hcr : Schema.Create names types =
          Except.ok { names_ := names, types_ := types, index_ := index } := by
        simp [Schema.Create, hlen, hc]
      constructor
      · constructor
        · rintro ⟨e, he⟩
          rw [hcr] at he
          cases he
        · rintro (h | h)
          · exact absurd hlen h
          · exact absurd hnd h
      · exact ⟨fun _ => ⟨hlen, hnd⟩, fun _ => ⟨_, hcr, rfl, rfl⟩⟩
  · have hcr : ∃ e, Schema.Create names types = Except.error e := by
      simp [Schema.Create, hlen]
    constructor
    · exact ⟨fun _ => Or.inl hlen, fun _ => hcr⟩
    · constructor
      · rintro ⟨s, hs, _⟩
        obtain ⟨e, he⟩ := hcr
        rw [he] at hs
        cases hs
      · intro h
        exact absurd h.1 hlen

/-- C1: `Schema::Create(names, types)` throws exactly when the two vectors differ in length or
a name occurs more than once; in every other case it returns a schema whose names and types are
the given vectors, in the given order. -/
theorem Schema.Create_contract (names : List String) (types : List ElementTypeId) :
    ((∃ e, Schema.Create names types = Except.error e) ↔
        (names.length ≠ types.length ∨ ¬ names.Nodup)) ∧
      ((∃ s, Schema.Create names types = Except.ok s ∧ s.names_ = names ∧ s.types_ = types) ↔
        (names.length = types.length ∧ names.Nodup)) :=
  Schema.Create_outcomes names types

/-- C2: for names without repetition, types of the same length and a position `i` below the
length, the created schema exists and `GetColumnIndex(names[i], strict)` returns `i`, whether
`strict` is true or false. -/
theorem Schema.GetColumnIndex_of_position (names : List String) (types : List ElementTypeId)
    (hnd : names.Nodup) (hlen : names.length = types.length) (i : Nat) (hi : i < names.length)
    (strict : Bool) :
    ∃ s, Schema.Create names types = Except.ok s ∧
      s.GetColumnIndex (names.get ⟨i, hi⟩) strict = Except.ok (some i) := by
  obtain ⟨s, hs, -, -⟩ := (Schema.Create_outcomes names types).2.mpr ⟨hlen, hnd⟩
  refine ⟨s, hs, ?_⟩
  have hidx := ((Schema.Create_ok_iff names types s).mp hs).2.2.2
  have hfind := Schema.createLoop_find names 0 [] s.index_ hidx (names.get ⟨i, hi⟩)
  simp only [NameIndex.find, List.get_mem, if_true, Nat.zero_add] at hfind
  have hpos : names.indexOf (names.get ⟨i, hi⟩) = i := List.get_indexOf hnd ⟨i, hi⟩
  rw [hpos] at hfind
  unfold Schema.GetColumnIndex
  rw [hfind]

/-- C3: on a schema made by `Create`, a name that is not among its columns makes
`GetColumnIndex(name, true)` throw and `GetColumnIndex(name, false)` return the empty
optional. -/
theorem Schema.GetColumnIndex_of_missing (names : List String) (types : List ElementTypeId)
    (s : Schema) (hs : Schema.Create names types = Except.ok s) (name : String)
    (hname : name ∉ s.names_) :
    (∃ e, s.GetColumnIndex name true = Except.error e) ∧
      s.GetColumnIndex name false = Except.ok none := by
  obtain ⟨-, hn, -, hidx⟩ := (Schema.Create_ok_iff names types s).mp hs
  rw [hn] at hname
  have hfind := Schema.createLoop_find names 0 [] s.index_ hidx name
  simp only [NameIndex.find, hname, if_false] at hfind
  unfold Schema.GetColumnIndex
  rw [hfind]
  exact ⟨⟨_, rfl⟩, rfl⟩

/-- Witness for C2: in the schema of `Ticker` and `Close`, strict lookup of `Close` gives 1. -/
theorem Schema.GetColumnIndex_of_position_witness :
    ∃ s, Schema.Create ["Ticker", "Close"] [ElementTypeId.kString, ElementTypeId.kDouble] =
        Except.ok s ∧ s.GetColumnIndex "Close" true = Except.ok (some 1) :=
  Schema.GetColumnIndex_of_position ["Ticker", "Close"]
    [ElementTypeId.kString, ElementTypeId.kDouble] (by decide) (by decide) 1 (by decide) true

/-- Witness for C3: in the schema of `Ticker` and `Close`, `missing` is not found. -/
theorem Schema.GetColumnIndex_of_missing_witness :
    (∃ e, Schema.GetColumnIndex
        { names_ := ["Ticker", "Close"],
          types_ := [ElementTypeId.kString, ElementTypeId.kDouble],
          index_ := [("Ticker", 0), ("Close", 1)] } "missing" true = Except.error e) ∧
      Schema.GetColumnIndex
        { names_ := ["Ticker", "Close"],
          types_ := [ElementTypeId.kString, ElementTypeId.kDouble],
          index_ := [("Ticker", 0), ("Close", 1)] } "missing" false = Except.ok none :=
  Schema.GetColumnIndex_of_missing ["Ticker", "Close"]
    [ElementTypeId.kString, ElementTypeId.kDouble] _ (by rfl) "missing" (by decide)

end dhcore
end deephaven

/-! ## Theorems: column-source construction -/

namespace deephaven
namespace client
namespace subscription

theorem ArrayToColumnSource_flat (ty : arrow.TypeId) (n : Nat) :
    ∃ e, ArrayToColumnSource (arrow.Array.flat ty n) = Except.error e :=
  ⟨_, rfl⟩

theorem ArrayToColumnSource_length_ne_one (slots : List arrow.Array) (h : slots.length ≠ 1) :
    ∃ e, ArrayToColumnSource (arrow.Array.list slots) = Except.error e := by
  simp only [ArrayToColumnSource, VerboseCast_ListArray, h, ne_eq, not_false_eq_true, dif_pos]
  exact ⟨_, rfl⟩

theorem ArrayToColumnSource_inner_list (inner : List arrow.Array) :
    ∃ e, ArrayToColumnSource (arrow.Array.list [arrow.Array.list inner]) = Except.error e :=
  ⟨_, rfl⟩

theorem ArrayToColumnSource_inner_flat (ty : arrow.TypeId) (n : Nat) :
    (ty ∈ supportedTypes ∧
        ∃ css, ArrayToColumnSource (arrow.Array.list [arrow.Array.flat ty n]) = Except.ok css) ∨
      (ty ∉ supportedTypes ∧
        ∃ e, ArrayToColumnSource (arrow.Array.list [arrow.Array.flat ty n]) = Except.error e) := by
  cases ty <;>
    first
      | exact Or.inl ⟨by decide, _, rfl⟩
      | exact Or.inr ⟨by decide, _, rfl⟩

theorem ArrayToColumnSource_ok_iff (array : arrow.Array) :
    (∃ css, ArrayToColumnSource array = Except.ok css) ↔
      ∃ ty n, array = arrow.Array.list [arrow.Array.flat ty n] ∧ ty ∈ supportedTypes := by
  constructor
  · rintro ⟨css, hcss⟩
    cases array with
    | flat ty n =>
      obtain ⟨e, he⟩ := ArrayToColumnSource_flat ty n
      rw [he] at hcss
      cases hcss
    | list slots =>
      by_cases hlen : slots.length = 1
      · obtain ⟨inner, rfl⟩ := List.length_eq_one.mp hlen
        cases inner with
        | flat ty n =>
          rcases ArrayToColumnSource_inner_flat ty n with ⟨hty, -⟩ | ⟨-, e, he⟩
          · exact ⟨ty, n, rfl, hty⟩
          · rw [he] at hcss
            cases hcss
        | list inner =>
          obtain ⟨e, he⟩ := ArrayToColumnSource_inner_list inner
          rw [he] at hcss
          cases hcss
      · obtain ⟨e, he⟩ := ArrayToColumnSource_length_ne_one slots hlen
        rw [he] at hcss
        cases hcss
  · rintro ⟨ty, n, rfl, hty⟩
    rcases ArrayToColumnSource_inner_flat ty n with ⟨-, h⟩ | ⟨hno, -⟩
    · exact h
    · exact absurd hty hno

/-- C4: `ArrayToColumnSource` returns a column source exactly for a list array of length 1
whose wrapped inner array is of type Int8, Int16, Int32, Int64, Boolean, String or Timestamp.
It throws for every list array of length 0 or of length 2 or more, and for every length-1 list
array whose inner array is of another type. -/
theorem ArrayToColumnSource_succeeds_iff :
    (∀ array : arrow.Array, (∃ css, ArrayToColumnSource array = Except.ok css) ↔
        ∃ ty n, array = arrow.Array.list [arrow.Array.flat ty n] ∧ ty ∈ supportedTypes) ∧
      (∀ slots : List arrow.Array, slots.length = 0 ∨ 2 ≤ slots.length →
        ∃ e, ArrayToColumnSource (arrow.Array.list slots) = Except.error e) ∧
      (∀ inner : arrow.Array, (¬ ∃ ty n, inner = arrow.Array.flat ty n ∧ ty ∈ supportedTypes) →
        ∃ e, ArrayToColumnSource (arrow.Array.list [inner]) = Except.error e) := by
  refine ⟨ArrayToColumnSource_ok_iff, ?_, ?_⟩
  · intro slots h
    exact ArrayToColumnSource_length_ne_one slots (by omega)
  · intro inner h
    cases inner with
    | flat ty n =>
      rcases ArrayToColumnSource_inner_flat ty n with ⟨hty, -⟩ | ⟨-, he⟩
      · exact absurd ⟨ty, n, rfl, hty⟩ h
      · exact he
    | list inner => exact ArrayToColumnSource_inner_list inner

/-- C5: for a length-1 envelope around an inner array of a supported type, the result is the
column source of the matching class, built on the inner array (Timestamp gives the DateTime
source), and `size_` is the length of the inner array, not the length 1 of the envelope. -/
theorem ArrayToColumnSource_matching_variant (n : Nat) :
    ArrayToColumnSource (arrow.Array.list [arrow.Array.flat arrow.TypeId.INT8 n]) =
        Except.ok { columnSource_ := some (ColumnSource.ArrowInt8ColumnSource
          (arrow.Array.flat arrow.TypeId.INT8 n)), size_ := n } ∧
      ArrayToColumnSource (arrow.Array.list [arrow.Array.flat arrow.TypeId.INT16 n]) =
        Except.ok { columnSource_ := some (ColumnSource.ArrowInt16ColumnSource
          (arrow.Array.flat arrow.TypeId.INT16 n)), size_ := n } ∧
      ArrayToColumnSource (arrow.Array.list [arrow.Array.flat arrow.TypeId.INT32 n]) =
        Except.ok { columnSource_ := some (ColumnSource.ArrowInt32ColumnSource
          (arrow.Array.flat arrow.TypeId.INT32 n)), size_ := n } ∧
      ArrayToColumnSource (arrow.Array.list [arrow.Array.flat arrow.TypeId.INT64 n]) =
        Except.ok { columnSource_ := some (ColumnSource.ArrowInt64ColumnSource
          (arrow.Array.flat arrow.TypeId.INT64 n)), size_ := n } ∧
      ArrayToColumnSource (arrow.Array.list [arrow.Array.flat arrow.TypeId.BOOL n]) =
        Except.ok { columnSource_ := some (ColumnSource.ArrowBooleanColumnSource
          (arrow.Array.flat arrow.TypeId.BOOL n)), size_ := n } ∧
      ArrayToColumnSource (arrow.Array.list [arrow.Array.flat arrow.TypeId.STRING n]) =
        Except.ok { columnSource_ := some (ColumnSource.ArrowStringColumnSource
          (arrow.Array.flat arrow.TypeId.STRING n)), size_ := n } ∧
      ArrayToColumnSource (arrow.Array.list [arrow.Array.flat arrow.TypeId.TIMESTAMP n]) =
        Except.ok { columnSource_ := some (ColumnSource.ArrowDateTimeColumnSource
          (arrow.Array.flat arrow.TypeId.TIMESTAMP n)), size_ := n } :=
  ⟨rfl, rfl, rfl, rfl, rfl, rfl, rfl⟩

end subscription
end client
end deephaven

/-! ## Theorems: the handle -/

namespace deephaven
namespace client
namespace subscription

theorem shutdownActions_append (a b : List HandleEvent) :
    shutdownActions (a ++ b) = shutdownActions a ++ shutdownActions b := by
  induction a with
  | nil => rfl
  | cons e a ih => cases e <;> simp [shutdownActions, ih]

theorem UpdateProcessor.Cancel_of_cancelled (self : UpdateProcessor)
    (h : self.cancelled_ = true) :
    (UpdateProcessor.Cancel self).self = self ∧ (UpdateProcessor.Cancel self).thrown = none ∧
      shutdownActions (UpdateProcessor.Cancel self).events = [] := by
  simp [UpdateProcessor.Cancel, h, shutdownActions]

/-- The first `Cancel` on a handle as `startThread` returns it. -/
theorem UpdateProcessor.Cancel_of_started (self : UpdateProcessor)
    (hcan : self.cancelled_ = false) (hjoin : self.thread_joinable = true) :
    UpdateProcessor.Cancel self =
      { self := { self with cancelled_ := true, thread_joinable := false },
        events := [HandleEvent.gpr_log "INFO"
          "UpdateProcessor::Cancel: Subscription Shutdown requested.",
          HandleEvent.fsr_Cancel, HandleEvent.thread_join],
        thrown := none } := by
  simp [UpdateProcessor.Cancel, hcan, hjoin]

theorem UpdateProcessor.Cancel_eq_of_cancelled (self : UpdateProcessor)
    (h : self.cancelled_ = true) :
    UpdateProcessor.Cancel self =
      { self := self,
        events := [HandleEvent.gpr_log "INFO"
          "UpdateProcessor::Cancel: Subscription Shutdown requested.",
          HandleEvent.gpr_log "ERROR" "UpdateProcessor::Cancel: Already cancelled."],
        thrown := none } := by
  simp [UpdateProcessor.Cancel, h]

theorem LifeStep.apply_Cancel_after_shutdown (s : HandleLife)
    (hcan : s.self.cancelled_ = true) (ho : s.ownerHolds = true) (hw : s.workerHolds = false)
    (ht : s.terminated = false) :
    LifeStep.Cancel.apply s = some { s with
      events := s.events ++ [HandleEvent.gpr_log "INFO"
        "UpdateProcessor::Cancel: Subscription Shutdown requested.",
        HandleEvent.gpr_log "ERROR" "UpdateProcessor::Cancel: Already cancelled."] } := by
  obtain ⟨self, o, w, ev, raised, term⟩ := s
  simp only at hcan ho hw ht
  subst ho hw ht
  simp [LifeStep.apply, UpdateProcessor.Cancel_eq_of_cancelled self hcan]

theorem LifeStep.apply_release_after_shutdown (s : HandleLife)
    (hcan : s.self.cancelled_ = true) (hjoin : s.self.thread_joinable = false)
    (ho : s.ownerHolds = true) (hw : s.workerHolds = false) (ht : s.terminated = false) :
    LifeStep.release.apply s = some { s with
      ownerHolds := false,
      events := s.events ++ [HandleEvent.gpr_log "INFO"
        "UpdateProcessor::Cancel: Subscription Shutdown requested.",
        HandleEvent.gpr_log "ERROR" "UpdateProcessor::Cancel: Already cancelled."] } := by
  obtain ⟨self, o, w, ev, raised, term⟩ := s
  simp only at hcan hjoin ho hw ht
  subst ho hw ht
  simp [LifeStep.apply, UpdateProcessor.destructor,
    UpdateProcessor.Cancel_eq_of_cancelled self hcan, hjoin]

/-- Once the shutdown is done, further `Cancel` calls and the release of the handle by its
owner perform no shutdown action, raise nothing and do not end the process. -/
theorem runLife_after_shutdown (n : Nat) (s : HandleLife) (hcan : s.self.cancelled_ = true)
    (hjoin : s.self.thread_joinable = false) (ho : s.ownerHolds = true)
    (hw : s.workerHolds = false) (ht : s.terminated = false) :
    ∃ s1, runLife (List.replicate n LifeStep.Cancel ++ [LifeStep.release]) s = some s1 ∧
      shutdownActions s1.events = shutdownActions s.events ∧ s1.raised = s.raised ∧
      s1.terminated = false := by
  induction n generalizing s with
  | zero =>
    have hstep := LifeStep.apply_release_after_shutdown s hcan hjoin ho hw ht
    have hrun : runLife (List.replicate 0 LifeStep.Cancel ++ [LifeStep.release]) s =
        some { s with
          ownerHolds := false,
          events := s.events ++ [HandleEvent.gpr_log "INFO"
            "UpdateProcessor::Cancel: Subscription Shutdown requested.",
            HandleEvent.gpr_log "ERROR" "UpdateProcessor::Cancel: Already cancelled."] } := by
      simp only [List.replicate_zero, List.nil_append, runLife, hstep]
    refine ⟨_, hrun, ?_, rfl, ht⟩
    simp [shutdownActions_append, shutdownActions]
  | succ n ih =>
    have hstep := LifeStep.apply_Cancel_after_shutdown s hcan ho hw ht
    obtain ⟨s1, hrun, ha, hr, hterm⟩ := ih
      { s with
        events := s.events ++ [HandleEvent.gpr_log "INFO"
          "UpdateProcessor::Cancel: Subscription Shutdown requested.",
          HandleEvent.gpr_log "ERROR" "UpdateProcessor::Cancel: Already cancelled."] }
      hcan hjoin ho hw ht
    refine ⟨s1, ?_, ?_, hr, hterm⟩
    · simp only [List.replicate_succ, List.cons_append, runLife, hstep]
      exact hrun
    · rw [ha]
      simp [shutdownActions_append, shutdownActions]

/-- With one `Cancel` or more before the owner releases the handle, the shutdown is performed
exactly once, by the first `Cancel`, whether the worker was still running or not. -/
theorem runLife_Cancel_then_release (n : Nat) (handle : UpdateProcessor)
    (hcan : handle.cancelled_ = false) (hjoin : handle.thread_joinable = true) :
    ∃ s1, runLife (List.replicate (n + 1) LifeStep.Cancel ++ [LifeStep.release])
        (HandleLife.afterStartThread handle) = some s1 ∧
      shutdownActions s1.events = [HandleEvent.fsr_Cancel, HandleEvent.thread_join] ∧
      s1.raised = [] ∧ s1.terminated = false := by
  have hc := UpdateProcessor.Cancel_of_started handle hcan hjoin
  obtain ⟨s1, hrun, ha, hr, hterm⟩ := runLife_after_shutdown n
    { self := { handle with cancelled_ := true, thread_joinable := false },
      ownerHolds := true, workerHolds := false,
      events := [HandleEvent.gpr_log "INFO"
        "UpdateProcessor::Cancel: Subscription Shutdown requested.",
        HandleEvent.fsr_Cancel, HandleEvent.thread_join],
      raised := [], terminated := false } rfl rfl rfl rfl rfl
  refine ⟨s1, ?_, ?_, hr, hterm⟩
  · simp only [List.replicate_succ, List.cons_append, runLife, LifeStep.apply,
      HandleLife.afterStartThread, hc]
    simpa using hrun
  · rw [ha]
    rfl

/-- C6: a handle as `startThread` returns it, the worker thread running, is released by its
owner without any `Cancel`. The worker thread still holds a pointer to the object, so no
destructor runs: nothing is shut down and the worker goes on. When the worker later returns,
the destructor runs on the worker thread; its `Cancel` calls `fsr_->Cancel()` and then joins
the calling thread, which throws inside the destructor, and the process is terminated. -/
theorem release_without_Cancel_shuts_nothing_down :
    (UpdateProcessor.startThread none [] tickerCloseSchema).1 =
        Except.ok (workerOnSchema tickerCloseSchema) ∧
      (∃ s, runLife [LifeStep.release]
          (HandleLife.afterStartThread (workerOnSchema tickerCloseSchema)) = some s ∧
        s.events = [] ∧ s.workerHolds = true ∧ s.terminated = false) ∧
      (∃ s, runLife [LifeStep.release, LifeStep.workerReturns]
          (HandleLife.afterStartThread (workerOnSchema tickerCloseSchema)) = some s ∧
        shutdownActions s.events = [HandleEvent.fsr_Cancel] ∧ s.terminated = true) :=
  ⟨rfl, ⟨_, rfl, rfl, rfl, rfl⟩, ⟨_, rfl, rfl, rfl⟩⟩

end subscription
end client
end deephaven

/-! ## Theorems: the worker -/

namespace deephaven
namespace client
namespace subscription

theorem failures_append {υ : Type} (a b : List (Event υ)) :
    failures (a ++ b) = failures a ++ failures b := by
  induction a with
  | nil => rfl
  | cons e a ih => cases e <;> simp [failures, ih]

theorem ticks_append {υ : Type} (a b : List (Event υ)) :
    ticks (a ++ b) = ticks a ++ ticks b := by
  induction a with
  | nil => rfl
  | cons e a ih => cases e <;> simp [ticks, ih]

theorem decoderCalls_append {υ : Type} (a b : List (Event υ)) :
    decoderCalls (a ++ b) = decoderCalls a + decoderCalls b := by
  induction a with
  | nil => simp [decoderCalls]
  | cons e a ih => cases e <;> simp [decoderCalls, ih]; omega

/-- The loop itself never calls `OnFailure`. -/
theorem RunForeverHelper.loop_failures {σ υ : Type} (P : BarrageProcessor σ υ)
    (fsr : arrow.flight.FlightStreamReader) (bp : σ) :
    failures (RunForeverHelper.loop P fsr bp).2 = [] := by
  induction fsr generalizing bp with
  | nil => rfl
  | cons next fsr ih =>
    unfold RunForeverHelper.loop
    repeat' split
    all_goals simp [failures, ih]

/-- The trace of the worker thread, by the way the loop ended and the flag. -/
theorem UpdateProcessor.RunUntilCancelled_events {σ υ : Type} (P : BarrageProcessor σ υ)
    (self : UpdateProcessor) :
    (UpdateProcessor.RunUntilCancelled P self).1 = (UpdateProcessor.RunForeverHelper P self).1 ∧
      (UpdateProcessor.RunUntilCancelled P self).2 =
        (UpdateProcessor.RunForeverHelper P self).2 ++
          (match (UpdateProcessor.RunForeverHelper P self).1, self.cancelled_ with
            | LoopEnd.thrown e, false => [Event.OnFailure e]
            | _, _ => []) := by
  unfold UpdateProcessor.RunUntilCancelled
  rcases hr : UpdateProcessor.RunForeverHelper P self with ⟨ending, events⟩
  cases ending with
  | blockedInNext => simp
  | nullDataDereferenced => simp
  | thrown e =>
    cases hcan : self.cancelled_ <;> simp

/-- C7: in every run of the worker thread `OnFailure` is called at most once; it is called
(once, with the exception caught) exactly when `RunForeverHelper` was left by an exception and
the handler read the flag `cancelled_` as false; when the flag is set the exception is
swallowed and `OnFailure` is not called. -/
theorem OnFailure_at_most_once {σ υ : Type} (P : BarrageProcessor σ υ)
    (self : UpdateProcessor) :
    (failures (UpdateProcessor.RunUntilCancelled P self).2).length ≤ 1 ∧
      (∀ e, failures (UpdateProcessor.RunUntilCancelled P self).2 = [e] ↔
        ((UpdateProcessor.RunForeverHelper P self).1 = LoopEnd.thrown e ∧
          self.cancelled_ = false)) ∧
      ((failures (UpdateProcessor.RunUntilCancelled P self).2).length = 1 ↔
        ((∃ e, (UpdateProcessor.RunForeverHelper P self).1 = LoopEnd.thrown e) ∧
          self.cancelled_ = false)) ∧
      (self.cancelled_ = true → failures (UpdateProcessor.RunUntilCancelled P self).2 = []) := by
  have hev := (UpdateProcessor.RunUntilCancelled_events P self).2
  have hloop : failures (UpdateProcessor.RunForeverHelper P self).2 = [] :=
    RunForeverHelper.loop_failures P self.fsr_ (P.create self.schema_)
  rw [hev, failures_append, hloop]
  cases hend : (UpdateProcessor.RunForeverHelper P self).1 with
  | blockedInNext => simp [failures]
  | nullDataDereferenced => simp [failures]
  | thrown e0 =>
    cases hcan : self.cancelled_ with
    | true => simp [failures]
    | false =>
      simp [failures, eq_comm]

theorem convertColumns_of_failing (cols : List arrow.Array) (c : arrow.Array) (hc : c ∈ cols)
    (h : ∃ e, ArrayToColumnSource c = Except.error e)
    (column_sources : List (Option ColumnSource)) (sizes : List Nat) :
    ∃ e, convertColumns cols column_sources sizes = Except.error e := by
  induction cols generalizing column_sources sizes with
  | nil => cases hc
  | cons d cols ih =>
    cases hd : ArrayToColumnSource d with
    | error e => exact ⟨e, by simp [convertColumns, hd]⟩
    | ok css =>
      rcases List.mem_cons.mp hc with heq | hmem
      · subst heq
        obtain ⟨e, he⟩ := h
        rw [he] at hd
        cases hd
      · obtain ⟨e, he⟩ := ih hmem (column_sources ++ [css.columnSource_]) (sizes ++ [css.size_])
        exact ⟨e, by simp [convertColumns, hd, he]⟩

/-- A loop that got through a prefix of the reads goes on with the rest. -/
theorem RunForeverHelper.loop_append {σ υ : Type} (P : BarrageProcessor σ υ)
    (pre rest : arrow.flight.FlightStreamReader) (bp : σ)
    (h : (RunForeverHelper.loop P pre bp).1 = LoopEnd.blockedInNext) :
    ∃ bp1, RunForeverHelper.loop P (pre ++ rest) bp =
      ((RunForeverHelper.loop P rest bp1).1,
        (RunForeverHelper.loop P pre bp).2 ++ (RunForeverHelper.loop P rest bp1).2) := by
  induction pre generalizing bp with
  | nil => exact ⟨bp, by simp [RunForeverHelper.loop]⟩
  | cons next pre ih =>
    simp only [List.cons_append, RunForeverHelper.loop] at h ⊢
    split at h
    · cases h
    · split at h
      · cases h
      · split at h
        · cases h
        · split at h
          · cases h
          · obtain ⟨bp2, hbp2⟩ := ih _ h
            exact ⟨bp2, by simp_all⟩
          · obtain ⟨bp2, hbp2⟩ := ih _ h
            exact ⟨bp2, by simp_all⟩

/-- The loop on a read whose frame has a column that does not convert. -/
theorem RunForeverHelper.loop_of_failing_column {σ υ : Type} (P : BarrageProcessor σ υ)
    (bad : arrow.flight.NextResult) (post : arrow.flight.FlightStreamReader)
    (batch : arrow.RecordBatch) (e : Exn) (hok : bad.status.ok = true)
    (hdata : bad.chunk.data = some batch)
    (he : convertColumns batch.columns [] [] = Except.error e) (bp : σ) :
    RunForeverHelper.loop P (bad :: post) bp = (LoopEnd.thrown e, []) := by
  simp [RunForeverHelper.loop, OkOrThrow, hok, hdata, he]

/-- C9: the worker got through the reads `pre` and then reads a frame one of whose columns
does not convert. Then the conversion error `e` ends `RunForeverHelper`, whatever reads would
follow; the calls made are those made for `pre`, so there is no `ProcessNextChunk` and no
`OnTick` for that frame or a later one; and the worker thread reports `e` through `OnFailure`
exactly once when `cancelled_` is false, and not at all when it is true. -/
theorem conversion_failure_is_terminal {σ υ : Type} (P : BarrageProcessor σ υ)
    (self : UpdateProcessor) (pre post : arrow.flight.FlightStreamReader)
    (bad : arrow.flight.NextResult) (batch : arrow.RecordBatch) (c : arrow.Array)
    (hfsr : self.fsr_ = pre ++ bad :: post)
    (hpre : (RunForeverHelper.loop P pre (P.create self.schema_)).1 = LoopEnd.blockedInNext)
    (hok : bad.status.ok = true) (hdata : bad.chunk.data = some batch)
    (hc : c ∈ batch.columns) (hfail : ∃ e, ArrayToColumnSource c = Except.error e) :
    ∃ e, convertColumns batch.columns [] [] = Except.error e ∧
      UpdateProcessor.RunForeverHelper P self =
        (LoopEnd.thrown e, (RunForeverHelper.loop P pre (P.create self.schema_)).2) ∧
      UpdateProcessor.RunUntilCancelled P self =
        (LoopEnd.thrown e, (RunForeverHelper.loop P pre (P.create self.schema_)).2 ++
          (if self.cancelled_ then [] else [Event.OnFailure e])) ∧
      decoderCalls (UpdateProcessor.RunUntilCancelled P self).2 =
        decoderCalls (RunForeverHelper.loop P pre (P.create self.schema_)).2 ∧
      ticks (UpdateProcessor.RunUntilCancelled P self).2 =
        ticks (RunForeverHelper.loop P pre (P.create self.schema_)).2 ∧
      failures (UpdateProcessor.RunUntilCancelled P self).2 =
        (if self.cancelled_ then [] else [e]) := by
  obtain ⟨e, he⟩ := convertColumns_of_failing batch.columns c hc hfail [] []
  obtain ⟨bp1, hbp1⟩ := RunForeverHelper.loop_append P pre (bad :: post) _ hpre
  have hbad := RunForeverHelper.loop_of_failing_column P bad post batch e hok hdata he bp1
  have hrun : UpdateProcessor.RunForeverHelper P self =
      (LoopEnd.thrown e, (RunForeverHelper.loop P pre (P.create self.schema_)).2) := by
    rw [UpdateProcessor.RunForeverHelper, hfsr, hbp1, hbad]
    simp
  have hfl := RunForeverHelper.loop_failures P pre (P.create self.schema_)
  have hall : UpdateProcessor.RunUntilCancelled P self =
      (LoopEnd.thrown e, (RunForeverHelper.loop P pre (P.create self.schema_)).2 ++
        (if self.cancelled_ then [] else [Event.OnFailure e])) := by
    unfold UpdateProcessor.RunUntilCancelled
    rw [hrun]
    cases self.cancelled_ <;> simp
  refine ⟨e, he, hrun, hall, ?_, ?_, ?_⟩
  · rw [hall]
    cases self.cancelled_ <;> simp [decoderCalls_append, decoderCalls]
  · rw [hall]
    cases self.cancelled_ <;> simp [ticks_append, ticks]
  · rw [hall]
    cases self.cancelled_ <;> simp [failures_append, failures, hfl]

/-- Witness for C9: two good frames, then a frame with a Double column, then a good frame;
the worker, not cancelled, makes the calls of the first two frames and then one `OnFailure`. -/
theorem conversion_failure_is_terminal_witness :
    ∃ e, decoderCalls (UpdateProcessor.RunUntilCancelled pairingDecoder
          (workerOn ([goodFrame, goodFrame, doubleFrame, goodFrame].map Frame.toNextResult)
            false)).2 = 2 ∧
      ticks (UpdateProcessor.RunUntilCancelled pairingDecoder
          (workerOn ([goodFrame, goodFrame, doubleFrame, goodFrame].map Frame.toNextResult)
            false)).2 = [[2, 2]] ∧
      failures (UpdateProcessor.RunUntilCancelled pairingDecoder
          (workerOn ([goodFrame, goodFrame, doubleFrame, goodFrame].map Frame.toNextResult)
            false)).2 = [e] := by
  obtain ⟨e, -, -, -, h1, h2, h3⟩ := conversion_failure_is_terminal pairingDecoder
    (workerOn ([goodFrame, goodFrame, doubleFrame, goodFrame].map Frame.toNextResult) false)
    ([goodFrame, goodFrame].map Frame.toNextResult) [goodFrame.toNextResult]
    doubleFrame.toNextResult { columns := doubleFrame.columns }
    (arrow.Array.list [arrow.Array.flat arrow.TypeId.DOUBLE 2])
    rfl rfl rfl rfl (by simp [doubleFrame]) ⟨_, rfl⟩
  exact ⟨e, h1, h2, h3⟩

end subscription
end client
end deephaven

/-! ## Theorems: setup -/

namespace deephaven
namespace client
namespace subscription

theorem OkOrThrow_eq_ok_iff (place : String) (status : arrow.Status) :
    OkOrThrow place status = Except.ok () ↔ status.ok = true := by
  unfold OkOrThrow
  cases status.ok <;> simp

/-- The three outcomes of `SubscriptionThread::Start`, by what the transport answers. -/
theorem SubscriptionThread.Start_outcomes (server : Server) (schema : dhcore.Schema)
    (ticket : arrow.Bytes) :
    ((server.DoExchange { headers := server.headers }
          { cmd := magic_data server.kDeephavenMagicNumber }).ok = false →
        (∃ e, (SubscriptionThread.Start server schema ticket).returned =
          some (Except.error e)) ∧
        SetupEvent.thread_started ∉ (SubscriptionThread.Start server schema ticket).events) ∧
      ((server.WriteMetadata (server.CreateSubscriptionRequest (ticket.map toInt8))).ok = false →
        (∃ e, (SubscriptionThread.Start server schema ticket).returned =
          some (Except.error e)) ∧
        SetupEvent.thread_started ∉ (SubscriptionThread.Start server schema ticket).events) ∧
      (∀ handle, (SubscriptionThread.Start server schema ticket).returned =
          some (Except.ok handle) →
        (server.DoExchange { headers := server.headers }
          { cmd := magic_data server.kDeephavenMagicNumber }).ok = true ∧
        (server.WriteMetadata (server.CreateSubscriptionRequest (ticket.map toInt8))).ok = true ∧
        SetupEvent.thread_started ∈ (SubscriptionThread.Start server schema ticket).events) := by
  simp only [SubscriptionThread.Start, Executor.Invoke, SubscribeState.Invoke,
    SubscribeState.InvokeHelper, UpdateProcessor.startThread, OkOrThrow]
  cases h1 : (server.DoExchange { headers := server.headers }
      { cmd := magic_data server.kDeephavenMagicNumber }).ok <;>
    cases h2 : (server.WriteMetadata
      (server.CreateSubscriptionRequest (ticket.map toInt8))).ok <;>
    cases h3 : server.thread_error <;>
    simp [SharedState.set_value, SharedState.set_exception, SharedState.get,
      UpdateProcessor.destructor, UpdateProcessor.Cancel]

/-- C10: when `DoExchange` fails, or when `WriteMetadata` fails, `SubscriptionThread::Start`
gives its caller an exception and no handle, and the worker thread is never started; when
`Start` does return a handle, both calls had succeeded and the thread was started. -/
theorem Start_fails_without_thread (server : Server) (schema : dhcore.Schema)
    (ticket : arrow.Bytes) :
    ((server.DoExchange { headers := server.headers }
          { cmd := magic_data server.kDeephavenMagicNumber }).ok = false →
        (∃ e, (SubscriptionThread.Start server schema ticket).returned =
          some (Except.error e)) ∧
        SetupEvent.thread_started ∉ (SubscriptionThread.Start server schema ticket).events) ∧
      ((server.WriteMetadata (server.CreateSubscriptionRequest (ticket.map toInt8))).ok = false →
        (∃ e, (SubscriptionThread.Start server schema ticket).returned =
          some (Except.error e)) ∧
        SetupEvent.thread_started ∉ (SubscriptionThread.Start server schema ticket).events) ∧
      (∀ handle, (SubscriptionThread.Start server schema ticket).returned =
          some (Except.ok handle) →
        (server.DoExchange { headers := server.headers }
          { cmd := magic_data server.kDeephavenMagicNumber }).ok = true ∧
        (server.WriteMetadata (server.CreateSubscriptionRequest (ticket.map toInt8))).ok = true ∧
        SetupEvent.thread_started ∈ (SubscriptionThread.Start server schema ticket).events) :=
  SubscriptionThread.Start_outcomes server schema ticket

/-- Witness for C10: a server whose `WriteMetadata` fails gives an exception and starts no
thread; a server on which both calls succeed gives a handle, and the thread was started. -/
theorem Start_fails_without_thread_witness :
    ((∃ e, (SubscriptionThread.Start
          (serverReturning arrow.Status.OK
            { code := arrow.StatusCode.IOError, msg := "unavailable" })
          { names_ := [], types_ := [], index_ := [] } [1, 2, 3]).returned =
          some (Except.error e)) ∧
        SetupEvent.thread_started ∉ (SubscriptionThread.Start
          (serverReturning arrow.Status.OK
            { code := arrow.StatusCode.IOError, msg := "unavailable" })
          { names_ := [], types_ := [], index_ := [] } [1, 2, 3]).events) ∧
      SetupEvent.thread_started ∈ (SubscriptionThread.Start
          (serverReturning arrow.Status.OK arrow.Status.OK)
          { names_ := [], types_ := [], index_ := [] } [1, 2, 3]).events :=
  ⟨(Start_fails_without_thread
      (serverReturning arrow.Status.OK { code := arrow.StatusCode.IOError, msg := "unavailable" })
      { names_ := [], types_ := [], index_ := [] } [1, 2, 3]).2.1 rfl,
    ((Start_fails_without_thread (serverReturning arrow.Status.OK arrow.Status.OK)
      { names_ := [], types_ := [], index_ := [] } [1, 2, 3]).2.2
        { fsr_ := [], schema_ := { names_ := [], types_ := [], index_ := [] },
          cancelled_ := false, thread_joinable := true } rfl).2.2⟩

end subscription
end client
end deephaven

/-! ## Theorems: the setup future -/

namespace deephaven
namespace client
namespace subscription

/-- C11: on a server whose `DoExchange` fails with the I/O error `unavailable`, the setup code
throws a `runtime_error` that carries the message, but what `Start` rethrows to its caller is
the copy made by `make_exception_ptr` from the static type `std::exception`: another kind, and
the message is gone. -/
theorem Start_rethrows_sliced_exception :
    (SubscribeState.InvokeHelper
        { server_ := serverReturning { code := arrow.StatusCode.IOError, msg := "unavailable" }
            arrow.Status.OK,
          ticketBytes_ := [1, 2, 3],
          schema_ := { names_ := [], types_ := [], index_ := [] },
          promise_ := SharedState.pending }).1 =
        Except.error (runtime_error
          "client->DoExchange(fco, descriptor, &fsw, &fsr): unavailable") ∧
      (SubscriptionThread.Start
        (serverReturning { code := arrow.StatusCode.IOError, msg := "unavailable" }
          arrow.Status.OK)
        { names_ := [], types_ := [], index_ := [] } [1, 2, 3]).returned =
        some (Except.error { kind := ExnKind.stdException, what := "std::exception" }) :=
  ⟨by rfl, rfl⟩

theorem SharedState.set_after_final (p : SharedState) (hp : p ≠ SharedState.pending)
    (handle : UpdateProcessor) (e : Exn) :
    p.set_value handle = Except.error promise_already_satisfied ∧
      p.set_exception e = Except.error promise_already_satisfied := by
  cases p with
  | pending => exact absurd rfl hp
  | value h => exact ⟨rfl, rfl⟩
  | exception e0 => exact ⟨rfl, rfl⟩

/-- No destructor runs while `InvokeHelper` unwinds unless the thread constructor throws. -/
theorem SubscribeState.InvokeHelper_unwinding (self : SubscribeState)
    (h : self.server_.thread_error = none) : self.InvokeHelper.2.2 = none := by
  unfold SubscribeState.InvokeHelper
  simp only [UpdateProcessor.startThread, h]
  split
  · rfl
  · split <;> rfl

/-- What `Invoke` leaves in a promise that was pending, when the process was not ended. -/
theorem SubscribeState.Invoke_of_pending (self : SubscribeState)
    (hp : self.promise_ = SharedState.pending) (hd : self.InvokeHelper.2.2 = none) :
    self.Invoke.thrown = none ∧ self.Invoke.terminated = false ∧
      self.Invoke.events = self.InvokeHelper.2.1 ∧
      self.Invoke.promise_ =
        (match self.InvokeHelper.1 with
          | Except.ok handle => SharedState.value handle
          | Except.error e => SharedState.exception (make_exception_ptr e)) := by
  unfold SubscribeState.Invoke
  rw [hp]
  generalize self.InvokeHelper = r at hd ⊢
  obtain ⟨res, ev, d⟩ := r
  change d = none at hd
  subst hd
  cases res <;> simp [SharedState.set_value, SharedState.set_exception]

/-- When the worker thread can be started, an execution of `Invoke` on a pending promise ends
without an exception and leaves the promise in a final state reached by exactly one set call:
`set_value(handle)` when `InvokeHelper` returned `handle`, `set_exception` when it threw. -/
theorem SubscribeState.Invoke_sets_promise_once (self : SubscribeState)
    (hp : self.promise_ = SharedState.pending) (ht : self.server_.thread_error = none) :
    self.Invoke.thrown = none ∧ self.Invoke.terminated = false ∧
      self.Invoke.promise_ ≠ SharedState.pending ∧
      (∀ handle, self.InvokeHelper.1 = Except.ok handle →
        self.Invoke.promise_ = SharedState.value handle) ∧
      (∀ e, self.InvokeHelper.1 = Except.error e →
        self.Invoke.promise_ = SharedState.exception (make_exception_ptr e)) ∧
      (∀ handle e, self.Invoke.promise_.set_value handle =
          Except.error promise_already_satisfied ∧
        self.Invoke.promise_.set_exception e = Except.error promise_already_satisfied) := by
  obtain ⟨h1, h2, -, h3⟩ := SubscribeState.Invoke_of_pending self hp
    (SubscribeState.InvokeHelper_unwinding self ht)
  have hne : self.Invoke.promise_ ≠ SharedState.pending := by
    rw [h3]
    cases self.InvokeHelper.1 <;> simp
  refine ⟨h1, h2, hne, ?_, ?_, ?_⟩
  · intro handle hh
    rw [h3, hh]
  · intro e he
    rw [h3, he]
  · intro handle e
    exact SharedState.set_after_final _ hne handle e

/-- C12: on a server where `DoExchange` and `WriteMetadata` succeed but the `std::thread`
constructor throws, the setup code raises an error, yet `Invoke` never reaches its handler: the
destructor of the new `UpdateProcessor` ends the process while the exception unwinds. The
promise is left pending and `Start` never returns to its caller. -/
theorem Invoke_leaves_promise_pending :
    (SubscribeState.InvokeHelper
        { server_ := serverWithoutThreads, ticketBytes_ := [1, 2, 3],
          schema_ := tickerCloseSchema, promise_ := SharedState.pending }).1 =
        Except.error
          { kind := ExnKind.systemError, what := "Resource temporarily unavailable" } ∧
      (SubscribeState.Invoke
        { server_ := serverWithoutThreads, ticketBytes_ := [1, 2, 3],
          schema_ := tickerCloseSchema, promise_ := SharedState.pending }).terminated = true ∧
      (SubscribeState.Invoke
        { server_ := serverWithoutThreads, ticketBytes_ := [1, 2, 3],
          schema_ := tickerCloseSchema, promise_ := SharedState.pending }).promise_.get = none ∧
      (SubscriptionThread.Start serverWithoutThreads tickerCloseSchema [1, 2, 3]).returned =
        none ∧
      (SubscriptionThread.Start serverWithoutThreads tickerCloseSchema [1, 2, 3]).terminated =
        true :=
  ⟨rfl, rfl, rfl, rfl, rfl⟩

end subscription
end client
end deephaven

/-! ## Theorems: a failed read, and the end of the stream -/

namespace deephaven
namespace client
namespace subscription

/-- The loop on a read that fails. -/
theorem RunForeverHelper.loop_of_failed_read {σ υ : Type} (P : BarrageProcessor σ υ)
    (bad : arrow.flight.NextResult) (post : arrow.flight.FlightStreamReader)
    (hbad : bad.status.ok = false) (bp : σ) :
    RunForeverHelper.loop P (bad :: post) bp =
      (LoopEnd.thrown (runtime_error
        (DEEPHAVEN_DEBUG_MSG "fsr_->Next(&flight_stream_chunk)" bad.status.msg)), []) := by
  simp [RunForeverHelper.loop, OkOrThrow, hbad]

/-- C13 as stated fails: after the single read of the reader has failed, with `cancelled_`
false, the worker has called `OnFailure` once, and a `Cancel` made afterwards does act on the
transport: it calls `fsr_->Cancel()` and then joins the thread. -/
theorem Cancel_after_failure_not_noop :
    failures (UpdateProcessor.RunUntilCancelled pairingDecoder
        (workerOn [failedRead] false)).2 =
        [runtime_error "fsr_->Next(&flight_stream_chunk): connection reset"] ∧
      shutdownActions (UpdateProcessor.Cancel (workerOn [failedRead] false)).events =
        [HandleEvent.fsr_Cancel, HandleEvent.thread_join] :=
  ⟨by rfl, by rfl⟩

/-- C13, amended: the worker got through the reads `pre` and the next read fails, `Cancel`
not having been called. Then the loop is left by the read error `e`, `OnFailure` is called
exactly once, with `e`. A `Cancel` made afterwards throws nothing and does exactly this: the log
line, `fsr_->Cancel()` and `thread_.join()`, which sets the flag; a second `Cancel` performs no
shutdown action. -/
theorem Cancel_after_read_failure {σ υ : Type} (P : BarrageProcessor σ υ)
    (self : UpdateProcessor) (pre post : arrow.flight.FlightStreamReader)
    (bad : arrow.flight.NextResult) (hfsr : self.fsr_ = pre ++ bad :: post)
    (hpre : (RunForeverHelper.loop P pre (P.create self.schema_)).1 = LoopEnd.blockedInNext)
    (hbad : bad.status.ok = false) (hcan : self.cancelled_ = false)
    (hjoin : self.thread_joinable = true) :
    (UpdateProcessor.RunUntilCancelled P self).1 = LoopEnd.thrown (runtime_error
        (DEEPHAVEN_DEBUG_MSG "fsr_->Next(&flight_stream_chunk)" bad.status.msg)) ∧
      failures (UpdateProcessor.RunUntilCancelled P self).2 = [runtime_error
        (DEEPHAVEN_DEBUG_MSG "fsr_->Next(&flight_stream_chunk)" bad.status.msg)] ∧
      (UpdateProcessor.Cancel self).thrown = none ∧
      (UpdateProcessor.Cancel self).events =
        [HandleEvent.gpr_log "INFO" "UpdateProcessor::Cancel: Subscription Shutdown requested.",
          HandleEvent.fsr_Cancel, HandleEvent.thread_join] ∧
      (UpdateProcessor.Cancel self).self.cancelled_ = true ∧
      (UpdateProcessor.Cancel (UpdateProcessor.Cancel self).self).thrown = none ∧
      shutdownActions (UpdateProcessor.Cancel (UpdateProcessor.Cancel self).self).events =
        [] := by
  obtain ⟨bp1, hbp1⟩ := RunForeverHelper.loop_append P pre (bad :: post) _ hpre
  have hb := RunForeverHelper.loop_of_failed_read P bad post hbad bp1
  have hrun : UpdateProcessor.RunForeverHelper P self =
      (LoopEnd.thrown (runtime_error
        (DEEPHAVEN_DEBUG_MSG "fsr_->Next(&flight_stream_chunk)" bad.status.msg)),
        (RunForeverHelper.loop P pre (P.create self.schema_)).2) := by
    rw [UpdateProcessor.RunForeverHelper, hfsr, hbp1, hb]
    simp
  have hfl := RunForeverHelper.loop_failures P pre (P.create self.schema_)
  obtain ⟨e1, e2⟩ := UpdateProcessor.RunUntilCancelled_events P self
  rw [hrun] at e1 e2
  rw [hcan] at e2
  have hc : UpdateProcessor.Cancel self =
      { self := { self with cancelled_ := true, thread_joinable := false },
        events := [HandleEvent.gpr_log "INFO"
          "UpdateProcessor::Cancel: Subscription Shutdown requested.",
          HandleEvent.fsr_Cancel, HandleEvent.thread_join],
        thrown := none } := by
    simp [UpdateProcessor.Cancel, hcan, hjoin]
  refine ⟨e1, ?_, ?_, ?_, ?_, ?_, ?_⟩
  · rw [e2, failures_append, hfl]
    rfl
  · rw [hc]
  · rw [hc]
  · rw [hc]
  · rw [hc]
    rfl
  · rw [hc]
    rfl

/-- Witness for C13, amended: one good frame, then a failed read. -/
theorem Cancel_after_read_failure_witness :
    failures (UpdateProcessor.RunUntilCancelled pairingDecoder
        (workerOn [goodFrame.toNextResult, failedRead] false)).2 =
        [runtime_error "fsr_->Next(&flight_stream_chunk): connection reset"] ∧
      (UpdateProcessor.Cancel (workerOn [goodFrame.toNextResult, failedRead] false)).thrown =
        none :=
  ⟨(Cancel_after_read_failure pairingDecoder
      (workerOn [goodFrame.toNextResult, failedRead] false) [goodFrame.toNextResult] []
      failedRead rfl rfl rfl rfl rfl).2.1,
    (Cancel_after_read_failure pairingDecoder
      (workerOn [goodFrame.toNextResult, failedRead] false) [goodFrame.toNextResult] []
      failedRead rfl rfl rfl rfl rfl).2.2.1⟩

/-- C19: on a reader whose stream ends after one frame, the second `Next` succeeds with a null
`data`, and `RunForeverHelper` goes on to `data->columns()`: the loop ends by dereferencing the
null pointer, after the calls of the first frame, and no `OnFailure` is made. -/
theorem RunForeverHelper_reads_absent_batch :
    UpdateProcessor.RunForeverHelper pairingDecoder
        (workerOn [goodFrame.toNextResult, endOfStream] false) =
        (LoopEnd.nullDataDereferenced,
          [Event.ProcessNextChunk
            [some (ColumnSource.ArrowInt64ColumnSource
                (arrow.Array.flat arrow.TypeId.INT64 2)),
              some (ColumnSource.ArrowStringColumnSource
                (arrow.Array.flat arrow.TypeId.STRING 2))]
            [2, 2] (some [1, 2, 3])]) ∧
      (UpdateProcessor.RunUntilCancelled pairingDecoder
        (workerOn [goodFrame.toNextResult, endOfStream] false)).1 =
        LoopEnd.nullDataDereferenced ∧
      failures (UpdateProcessor.RunUntilCancelled pairingDecoder
        (workerOn [goodFrame.toNextResult, endOfStream] false)).2 = [] :=
  ⟨rfl, rfl, rfl⟩

end subscription
end client
end deephaven

/-! ## Theorems: the decoder of the specification, and the end-to-end scenario -/

namespace deephaven
namespace client
namespace subscription

theorem specDecoder_step_streaming (completes : Option arrow.Bytes → Bool)
    (bp : DecoderState) (f : Frame) (hphase : bp.phase = DecoderPhase.Streaming)
    (hbuf : bp.buffered = []) (hcols : f.columns.length = bp.numCols)
    (hcomplete : completes f.app_metadata = true) :
    (specDecoder completes).ProcessNextChunk bp (f.columns.map columnSourceOf)
        (f.columns.map sizeOf) f.app_metadata =
      Except.ok (bp, some { kind := UpdateKind.delta, chunks := [f.toChunkInput] }) := by
  obtain ⟨phase, numCols, buffered⟩ := bp
  simp only at hphase hbuf hcols
  subst hphase hbuf
  simp [specDecoder, hcols, hcomplete, Frame.toChunkInput]

theorem specDecoder_step_fresh (completes : Option arrow.Bytes → Bool)
    (schema : dhcore.Schema) (f : Frame) (hcols : f.columns.length = schema.names_.length)
    (hcomplete : completes f.app_metadata = true) :
    (specDecoder completes).ProcessNextChunk ((specDecoder completes).create schema)
        (f.columns.map columnSourceOf) (f.columns.map sizeOf) f.app_metadata =
      Except.ok
        ({ phase := DecoderPhase.Streaming, numCols := schema.names_.length, buffered := [] },
          some { kind := UpdateKind.snapshot, chunks := [f.toChunkInput] }) := by
  simp [specDecoder, hcols, hcomplete, Frame.toChunkInput]

/-- A decoder in `Streaming` with nothing buffered turns complete messages into deltas. -/
theorem feedDecoder_streaming (completes : Option arrow.Bytes → Bool) (frames : List Frame)
    (bp : DecoderState) (hphase : bp.phase = DecoderPhase.Streaming)
    (hbuf : bp.buffered = [])
    (hcols : ∀ g ∈ frames, g.columns.length = bp.numCols)
    (hcomplete : ∀ g ∈ frames, completes g.app_metadata = true) :
    feedDecoder (specDecoder completes) frames bp =
      frames.map fun g => { kind := UpdateKind.delta, chunks := [g.toChunkInput] } := by
  induction frames with
  | nil => rfl
  | cons f frames ih =>
    have hstep := specDecoder_step_streaming completes bp f hphase hbuf
      (hcols f (List.mem_cons_self _ _)) (hcomplete f (List.mem_cons_self _ _))
    have ih1 := ih (fun g hg => hcols g (List.mem_cons_of_mem _ hg))
      (fun g hg => hcomplete g (List.mem_cons_of_mem _ hg))
    simp only [feedDecoder, hstep, ih1, List.map_cons]

/-- The decoder of the specification fed `n ≥ 1` complete messages from its initial state. -/
theorem feedDecoder_fresh (completes : Option arrow.Bytes → Bool) (schema : dhcore.Schema)
    (f : Frame) (rest : List Frame)
    (hcols : ∀ g ∈ f :: rest, g.columns.length = schema.names_.length)
    (hcomplete : ∀ g ∈ f :: rest, completes g.app_metadata = true) :
    feedDecoder (specDecoder completes) (f :: rest) ((specDecoder completes).create schema) =
      { kind := UpdateKind.snapshot, chunks := [f.toChunkInput] } ::
        rest.map fun g => { kind := UpdateKind.delta, chunks := [g.toChunkInput] } := by
  have hstep := specDecoder_step_fresh completes schema f
    (hcols f (List.mem_cons_self _ _)) (hcomplete f (List.mem_cons_self _ _))
  have hrest := feedDecoder_streaming completes rest
    { phase := DecoderPhase.Streaming, numCols := schema.names_.length, buffered := [] } rfl rfl
    (fun g hg => hcols g (List.mem_cons_of_mem _ hg))
    (fun g hg => hcomplete g (List.mem_cons_of_mem _ hg))
  simp only [feedDecoder, hstep, hrest]

end subscription
end client
end deephaven

/-! ## Theorems: the handshake -/

namespace deephaven
namespace client
namespace subscription

theorem magic_data_value (src : Nat) :
    (magic_data src).length = 4 ∧ (∀ b ∈ magic_data src, b < 256) ∧
      (magic_data src).foldr (fun b acc => b + 256 * acc) 0 = src % 2 ^ 32 := by
  refine ⟨rfl, ?_, ?_⟩
  · intro b hb
    simp only [magic_data, List.mem_cons, List.mem_singleton, List.not_mem_nil, or_false] at hb
    omega
  · simp only [magic_data, List.foldr_cons, List.foldr_nil]
    omega

theorem toInt8_byte (b : Nat) : -128 ≤ toInt8 b ∧ toInt8 b < 128 ∧
    (toInt8 b % 256).toNat = b % 256 := by
  unfold toInt8
  split <;> omega

theorem ticket_bytes_same (ticket : arrow.Bytes) :
    (ticket.map toInt8).length = ticket.length ∧
      (ticket.map toInt8).map (fun b => (b % 256).toNat) = ticket.map fun b => b % 256 := by
  refine ⟨List.length_map _ _, ?_⟩
  rw [List.map_map]
  apply List.map_congr_left
  intro b _
  exact (toInt8_byte b).2.2

/-- The calls of the setup, by what the transport answers. -/
theorem SubscriptionThread.Start_events (server : Server) (schema : dhcore.Schema)
    (ticket : arrow.Bytes) :
    (SubscriptionThread.Start server schema ticket).events =
      SetupEvent.DoExchange { headers := server.headers }
          { cmd := magic_data server.kDeephavenMagicNumber } ::
        (if (server.DoExchange { headers := server.headers }
            { cmd := magic_data server.kDeephavenMagicNumber }).ok then
          SetupEvent.WriteMetadata (server.CreateSubscriptionRequest (ticket.map toInt8)) ::
            (if (server.WriteMetadata
                (server.CreateSubscriptionRequest (ticket.map toInt8))).ok ∧
                server.thread_error = none then
              [SetupEvent.thread_started]
            else [])
        else []) := by
  simp only [SubscriptionThread.Start, Executor.Invoke, SubscribeState.Invoke,
    SubscribeState.InvokeHelper, UpdateProcessor.startThread, OkOrThrow]
  cases h1 : (server.DoExchange { headers := server.headers }
      { cmd := magic_data server.kDeephavenMagicNumber }).ok <;>
    cases h2 : (server.WriteMetadata
      (server.CreateSubscriptionRequest (ticket.map toInt8))).ok <;>
    cases h3 : server.thread_error <;>
    simp [SharedState.set_value, SharedState.set_exception, UpdateProcessor.destructor,
      UpdateProcessor.Cancel]

/-- C17: for every ticket the setup makes its calls in this order. First `DoExchange`, with
the headers of the server and a descriptor whose `cmd` is the 4 bytes of the magic number (the
32-bit value in little-endian order). Then, only when `DoExchange` succeeded, one
`WriteMetadata` with the subscription request built from `ticketBytes_`, which has the
ticket's length and the ticket's bytes in order. Then, only when that succeeded too, the start
of the worker thread. -/
theorem handshake_order (server : Server) (schema : dhcore.Schema) (ticket : arrow.Bytes) :
    (magic_data server.kDeephavenMagicNumber).length = 4 ∧
      (∀ b ∈ magic_data server.kDeephavenMagicNumber, b < 256) ∧
      (magic_data server.kDeephavenMagicNumber).foldr (fun b acc => b + 256 * acc) 0 =
        server.kDeephavenMagicNumber % 2 ^ 32 ∧
      (ticket.map toInt8).length = ticket.length ∧
      (ticket.map toInt8).map (fun b => (b % 256).toNat) = (ticket.map fun b => b % 256) ∧
      (SubscriptionThread.Start server schema ticket).events =
        SetupEvent.DoExchange { headers := server.headers }
            { cmd := magic_data server.kDeephavenMagicNumber } ::
          (if (server.DoExchange { headers := server.headers }
              { cmd := magic_data server.kDeephavenMagicNumber }).ok then
            SetupEvent.WriteMetadata (server.CreateSubscriptionRequest (ticket.map toInt8)) ::
              (if (server.WriteMetadata
                  (server.CreateSubscriptionRequest (ticket.map toInt8))).ok ∧
                  server.thread_error = none then
                [SetupEvent.thread_started]
              else [])
          else []) :=
  ⟨(magic_data_value _).1, (magic_data_value _).2.1, (magic_data_value _).2.2,
    (ticket_bytes_same ticket).1, (ticket_bytes_same ticket).2,
    SubscriptionThread.Start_events server schema ticket⟩

end subscription
end client
end deephaven

/-! ## Theorems: two threads in `Cancel` -/

namespace deephaven
namespace client
namespace subscription

theorem RaceStep.apply_invariant (step : RaceStep) (s s1 : RaceState)
    (hinv : s.invariant) (h : step.apply s = some s1) : s1.invariant := by
  obtain ⟨cancelled, exited, pcA, pcB, actions, n, m⟩ := s
  cases step with
  | criticalSection t =>
    cases t <;> cases pcA <;> cases pcB <;> cases cancelled <;>
      simp [RaceStep.apply, RaceState.pc, RaceState.setPc] at h <;>
      subst h <;> simp_all [RaceState.invariant, CancelPc.performed]
  | fsrCancel t =>
    cases t <;> cases pcA <;> cases pcB <;>
      simp [RaceStep.apply, RaceState.pc, RaceState.setPc] at h <;>
      subst h <;> simp_all [RaceState.invariant, CancelPc.performed]
  | join t =>
    cases t <;> cases pcA <;> cases pcB <;> cases exited <;>
      simp [RaceStep.apply, RaceState.pc, RaceState.setPc] at h <;>
      subst h <;> simp_all [RaceState.invariant, CancelPc.performed]
  | workerCallback =>
    cases exited <;> cases pcA <;> cases pcB <;>
      simp [RaceStep.apply, CancelPc.returned] at h <;>
      subst h <;> simp_all [RaceState.invariant, CancelPc.performed]
  | workerExit =>
    cases exited <;> cases pcA <;> cases pcB <;>
      simp [RaceStep.apply] at h <;>
      subst h <;> simp_all [RaceState.invariant, CancelPc.performed]

theorem runSchedule_invariant (schedule : List RaceStep) (s s1 : RaceState)
    (hinv : s.invariant) (h : runSchedule schedule s = some s1) : s1.invariant := by
  induction schedule generalizing s with
  | nil =>
    simp only [runSchedule, Option.some.injEq] at h
    exact h ▸ hinv
  | cons step rest ih =>
    simp only [runSchedule] at h
    cases hstep : step.apply s with
    | none => simp [hstep] at h
    | some s2 =>
      rw [hstep] at h
      exact ih s2 (RaceStep.apply_invariant step s s2 hinv hstep) h

theorem raceInit_invariant : raceInit.invariant := by
  simp [raceInit, RaceState.invariant, CancelPc.performed]

/-- C15 as stated fails: thread A passes the critical section and sets the flag, thread B
then finds the flag set and returns at once; B has returned while the worker thread is still
running, and the worker makes a callback after B has returned. -/
theorem concurrent_Cancel_returns_early :
    ∃ s, runSchedule [RaceStep.criticalSection Caller.A, RaceStep.criticalSection Caller.B,
        RaceStep.workerCallback] raceInit = some s ∧
      s.pcB = CancelPc.returnedAlreadyCancelled ∧ s.workerExited = false ∧
      s.callbacksAfterReturn = 1 :=
  ⟨_, rfl, rfl, rfl, rfl⟩

/-- C15, amended: in every state that two concurrent `Cancel` calls can reach, the shutdown
actions performed are a prefix of one `fsr_->Cancel()` followed by one `thread_.join()`; a
call that returned from the join did so after the worker thread had exited, and no callback
was made after it returned; and once both calls have returned, exactly one shutdown has been
performed, by one of the two, the other having returned from the branch "Already cancelled"
without waiting. -/
theorem concurrent_Cancel_one_shutdown (schedule : List RaceStep) (s : RaceState)
    (h : runSchedule schedule raceInit = some s) :
    (s.actions = [] ∨ s.actions = [HandleEvent.fsr_Cancel] ∨
        s.actions = [HandleEvent.fsr_Cancel, HandleEvent.thread_join]) ∧
      (∀ t, s.pc t = CancelPc.returnedJoined → s.workerExited = true) ∧
      s.callbacksAfterJoinedReturn = 0 ∧
      (s.pcA.returned = true → s.pcB.returned = true →
        s.actions = [HandleEvent.fsr_Cancel, HandleEvent.thread_join] ∧
        s.workerExited = true ∧
        ((s.pcA = CancelPc.returnedJoined ∧ s.pcB = CancelPc.returnedAlreadyCancelled) ∨
          (s.pcA = CancelPc.returnedAlreadyCancelled ∧ s.pcB = CancelPc.returnedJoined))) := by
  have hinv := runSchedule_invariant schedule raceInit s raceInit_invariant h
  obtain ⟨cancelled, exited, pcA, pcB, actions, n, m⟩ := s
  obtain ⟨h1, h2, h3⟩ := hinv
  refine ⟨?_, ?_, h3, ?_⟩
  · cases pcA <;> cases pcB <;> simp_all [CancelPc.performed]
  · intro t ht
    cases t
    · exact h2 (Or.inl ht)
    · exact h2 (Or.inr ht)
  · cases pcA <;> cases pcB <;> simp_all [CancelPc.performed, CancelPc.returned]

/-- Witness for C15, amended: A sets the flag, B returns at once, A cancels the reader, the
worker exits, A joins; one shutdown has been performed. -/
theorem concurrent_Cancel_one_shutdown_witness :
    ∃ s, runSchedule [RaceStep.criticalSection Caller.A, RaceStep.criticalSection Caller.B,
        RaceStep.fsrCancel Caller.A, RaceStep.workerExit, RaceStep.join Caller.A] raceInit =
        some s ∧
      s.actions = [HandleEvent.fsr_Cancel, HandleEvent.thread_join] ∧
      s.workerExited = true :=
  ⟨_, rfl,
    ((concurrent_Cancel_one_shutdown
      [RaceStep.criticalSection Caller.A, RaceStep.criticalSection Caller.B,
        RaceStep.fsrCancel Caller.A, RaceStep.workerExit, RaceStep.join Caller.A] _ rfl).2.2.2
      rfl rfl).1,
    ((concurrent_Cancel_one_shutdown
      [RaceStep.criticalSection Caller.A, RaceStep.criticalSection Caller.B,
        RaceStep.fsrCancel Caller.A, RaceStep.workerExit, RaceStep.join Caller.A] _ rfl).2.2.2
      rfl rfl).2.1⟩

end subscription
end client
end deephaven

/-! ## Theorems: table handles -/

namespace deephaven
namespace client

theorem BooleanExpression.StreamIrisRepresentation_fresh (condition : BooleanExpression) :
    condition.StreamIrisRepresentation "" = condition.irisRepresentation := by
  simp [BooleanExpression.StreamIrisRepresentation]

/-- C18: for every table handle and every boolean expression, `Where(expression)` is
`Where(string)` on the string obtained by streaming the Iris representation of the expression
into a fresh stream, which is that representation itself; on a handle with an implementation
object the condition handed to `impl_->Where` is exactly that string. -/
theorem Where_expression_eq_Where_string {ι : Type} (implWhere : ι → String → ι)
    (self : TableHandle ι) (condition : BooleanExpression) :
    TableHandle.Where_BooleanExpression implWhere self condition =
        TableHandle.Where implWhere self (condition.StreamIrisRepresentation "") ∧
      condition.StreamIrisRepresentation "" = condition.irisRepresentation ∧
      (∀ impl, self.impl_ = some impl →
        TableHandle.Where_BooleanExpression implWhere self condition =
          some { impl_ := some (implWhere impl condition.irisRepresentation) }) := by
  refine ⟨rfl, BooleanExpression.StreamIrisRepresentation_fresh condition, ?_⟩
  intro impl himpl
  simp only [TableHandle.Where_BooleanExpression, TableHandle.Where, himpl,
    BooleanExpression.StreamIrisRepresentation_fresh]

/-- C20: the rows AAPL and ZNGA delivered in one chunk are printed with a newline between
them; the same rows delivered in two chunks of one row each are printed with nothing between
them, the test `row_num != 0` being made on the row number within the chunk. -/
theorem printTableData_depends_on_chunks :
    TableHandle.ToString ["Ticker", "Close"]
        (readerOfBatches [batchOfRows [aaplRow, zngaRow]]) false =
        ("AAPL\t23.5\nZNGA\t538.2", PrintEnd.returned) ∧
      TableHandle.ToString ["Ticker", "Close"]
        (readerOfBatches [batchOfRows [aaplRow], batchOfRows [zngaRow]]) false =
        ("AAPL\t23.5ZNGA\t538.2", PrintEnd.returned) := by
  constructor <;> rfl

end client
end deephaven

/-! ## Theorems: the client -/

namespace deephaven
namespace client

theorem ClientCall.run_eq_Close {ι : Type} (Shutdown : ι → Option Exn) (c : ClientCall)
    (self : Client ι) : c.run Shutdown self = Client.Close Shutdown self := by
  cases c <;> rfl

theorem Client.Close_of_null {ι : Type} (Shutdown : ι → Option Exn) (self : Client ι)
    (h : self.impl_ = none) :
    Client.Close Shutdown self = { self := { impl_ := none }, shutdowns := [], thrown := none } := by
  simp [Client.Close, h]

theorem Client.Close_of_owner {ι : Type} (Shutdown : ι → Option Exn) (impl : ι) :
    Client.Close Shutdown { impl_ := some impl } =
      { self := { impl_ := none }, shutdowns := [impl], thrown := Shutdown impl } :=
  rfl

/-- Calls on a client without state call `Shutdown` zero times and raise nothing. -/
theorem runClientCalls_of_null {ι : Type} (Shutdown : ι → Option Exn) (cs : List ClientCall)
    (self : Client ι) (h : self.impl_ = none) :
    runClientCalls Shutdown cs self = ({ impl_ := none }, [], []) := by
  induction cs generalizing self with
  | nil =>
    cases self
    simp_all [runClientCalls]
  | cons c cs ih =>
    simp [runClientCalls, ClientCall.run_eq_Close, Client.Close_of_null Shutdown self h,
      ih { impl_ := none } rfl]

/-- Calls on a client that owns state call `Shutdown` once, in the first call. -/
theorem runClientCalls_of_owner {ι : Type} (Shutdown : ι → Option Exn) (c : ClientCall)
    (cs : List ClientCall) (impl : ι) :
    runClientCalls Shutdown (c :: cs) { impl_ := some impl } =
      ({ impl_ := none }, [impl], (Shutdown impl).toList) := by
  simp [runClientCalls, ClientCall.run_eq_Close, Client.Close_of_owner,
    runClientCalls_of_null Shutdown cs { impl_ := none } rfl]

/-- C21: on a client that owns state the first `Close` calls `Shutdown` exactly once, on that
state, and leaves the client without state. On a client without state, `Close` and the
destructor call `Shutdown` zero times, raise nothing and leave the client without state; such
are a client after any `Close`, a default-constructed one and a moved-from one. Over a whole
sequence of `Close` calls and destruction, `Shutdown` is called once if the client owned state
and never otherwise. -/
theorem Close_shuts_down_at_most_once {ι : Type} (Shutdown : ι → Option Exn) :
    (∀ impl : ι, (Client.Close Shutdown { impl_ := some impl }).shutdowns = [impl] ∧
        (Client.Close Shutdown { impl_ := some impl }).self.impl_ = none) ∧
      (∀ (self : Client ι) (c : ClientCall), self.impl_ = none →
        (c.run Shutdown self).shutdowns = [] ∧ (c.run Shutdown self).thrown = none ∧
        (c.run Shutdown self).self.impl_ = none) ∧
      (∀ (self : Client ι) (c : ClientCall), (c.run Shutdown self).self.impl_ = none) ∧
      (Client.default ι).impl_ = none ∧
      (∀ other : Client ι, (Client.move other).2.impl_ = none ∧
        (Client.move other).1.impl_ = other.impl_) ∧
      (∀ (impl : ι) (c : ClientCall) (cs : List ClientCall),
        runClientCalls Shutdown (c :: cs) { impl_ := some impl } =
          ({ impl_ := none }, [impl], (Shutdown impl).toList)) ∧
      (∀ (self : Client ι) (cs : List ClientCall), self.impl_ = none →
        runClientCalls Shutdown cs self = ({ impl_ := none }, [], [])) := by
  refine ⟨fun impl => ⟨rfl, rfl⟩, ?_, ?_, rfl, fun other => ⟨rfl, rfl⟩,
    fun impl c cs => runClientCalls_of_owner Shutdown c cs impl,
    fun self cs h => runClientCalls_of_null Shutdown cs self h⟩
  · intro self c h
    rw [ClientCall.run_eq_Close, Client.Close_of_null Shutdown self h]
    exact ⟨rfl, rfl, rfl⟩
  · intro self c
    rw [ClientCall.run_eq_Close]
    unfold Client.Close
    cases self.impl_ <;> rfl

/-- An instance of C21: a client owning the state 7, whose `Shutdown` throws nothing, is
closed twice and destroyed; a default-constructed client is closed and destroyed. -/
theorem Close_shuts_down_at_most_once_witness :
    runClientCalls (fun _ : Nat => none)
        [ClientCall.Close, ClientCall.Close, ClientCall.destroy] { impl_ := some 7 } =
        ({ impl_ := none }, [7], []) ∧
      runClientCalls (fun _ : Nat => none) [ClientCall.Close, ClientCall.destroy]
        (Client.default Nat) = ({ impl_ := none }, [], []) :=
  ⟨(Close_shuts_down_at_most_once (fun _ : Nat => none)).2.2.2.2.2.1 7 ClientCall.Close
      [ClientCall.Close, ClientCall.destroy],
    (Close_shuts_down_at_most_once (fun _ : Nat => none)).2.2.2.2.2.2 (Client.default Nat)
      [ClientCall.Close, ClientCall.destroy] rfl⟩

end client
end deephaven
